import Mathlib

set_option maxRecDepth 100000

/-!
Verification development for the `tag` audio-metadata library.

The Go sources are shallowly embedded: a seekable byte stream becomes an
explicit `GoStream` record, Go functions returning `(T, error)` become
functions into the result type `R`, and Go runtime panics (for example
`make([]byte, n)` with a negative `n`) are modelled by the distinguished
outcome `R.panicked`.  Machine integers are modelled by `Int`/`Nat`; the
only places where fixed-width overflow matters (the `uint32` atom sizes in
the checksum walkers) take an explicit `% 2^32`.  `crypto/sha1` is an
external library dependency of the source; it is modelled here by a
concrete FIPS-180 SHA-1 implementation over byte lists so that digests can
be evaluated on concrete inputs.
-/

namespace Tag

/-- Errors returned by the embedded Go functions.  `notID3v1` stands for the
distinguished sentinel `ErrNotID3v1`, `noTagsFound` for `ErrNoTagsFound`;
every other error value (`fmt.Errorf`, `errors.New`) is `msg`. -/
inductive GoError where
  | notID3v1 : GoError
  | noTagsFound : GoError
  | msg (s : String) : GoError
deriving DecidableEq

/-- Printed text of an error, used when `fmt.Errorf` wraps an inner error. -/
def GoError.text : GoError → String
  | .notID3v1 => "not ID3v1"
  | .noTagsFound => "no tags found"
  | .msg s => s

/-- Outcome of an embedded Go computation: a value, an error return, or a
runtime panic. -/
inductive R (α : Type) where
  | ok (a : α) : R α
  | err (e : GoError) : R α
  | panicked : R α
deriving DecidableEq

/-- Sequencing of embedded computations (errors and panics propagate). -/
def R.bind {α β : Type} : R α → (α → R β) → R β
  | .ok a, f => f a
  | .err e, _ => .err e
  | .panicked, _ => .panicked

/-- Rewrap the error of a computation, as `fmt.Errorf` wrapping does. -/
def R.mapErr {α : Type} : R α → (GoError → GoError) → R α
  | .err e, f => .err (f e)
  | x, _ => x

/-- A Go `io.ReadSeeker` over an in-memory byte sequence: the bytes and the
current read offset. -/
structure GoStream where
  data : List Nat
  pos : Nat
deriving DecidableEq

/-- Seek whence values (`SEEK_SET` / `SEEK_CUR` / `SEEK_END`). -/
inductive Whence where
  | set : Whence
  | cur : Whence
  | fromEnd : Whence
deriving DecidableEq

/-- `Seek`: computes the new absolute offset; a negative target is an error,
seeking past the end is allowed (as for `bytes.Reader` and `os.File`). -/
def seek (s : GoStream) (offset : Int) (w : Whence) : R (Int × GoStream) :=
  let base : Int :=
    match w with
    | .set => 0
    | .cur => s.pos
    | .fromEnd => s.data.length
  let t : Int := base + offset
  if t < 0 then .err (.msg ("negative seek position"))
  else .ok (t, ⟨s.data, t.toNat⟩)

/-- `readBytes` (util.go): `make([]byte, n)` followed by `io.ReadFull`.
A negative `n` makes `make` panic; `io.ReadFull` fails when fewer than `n`
bytes remain. -/
def readBytes (s : GoStream) (n : Int) : R (List Nat × GoStream) :=
  if n < 0 then .panicked
  else if s.pos + n.toNat ≤ s.data.length then
    .ok ((s.data.drop s.pos).take n.toNat, ⟨s.data, s.pos + n.toNat⟩)
  else .err (.msg ("unexpected EOF"))

/-- `ioutil.ReadAll`: everything from the current offset to the end. -/
def readAll (s : GoStream) : R (List Nat × GoStream) :=
  .ok (s.data.drop s.pos, ⟨s.data, s.data.length⟩)

/-- `io.CopyN` into a hasher: the copied bytes are returned.  With `n ≤ 0`
nothing is copied and no error is reported; reaching EOF before `n` bytes is
an error. -/
def copyN (s : GoStream) (n : Int) : R (List Nat × GoStream) :=
  if n ≤ 0 then .ok ([], s)
  else if s.pos + n.toNat ≤ s.data.length then
    .ok ((s.data.drop s.pos).take n.toNat, ⟨s.data, s.pos + n.toNat⟩)
  else .err (.msg ("EOF before requested byte count"))

/-- A Go string, as its byte sequence. -/
abbrev GoStr := List Nat

/-- Byte sequence of an ASCII string literal. -/
def str (s : String) : GoStr := s.toList.map Char.toNat

/-- `getBit` (util.go): `x := byte(1 << n); return (b & x) == x`. -/
def getBit (b : Nat) (n : Nat) : Bool :=
  let x := (1 <<< n) % 256
  (b &&& x) == x

/-- `getInt` (util.go): big-endian accumulation `n = n<<8 | int(x)`. -/
def getInt (b : List Nat) : Nat :=
  b.foldl (fun n x => (n <<< 8) ||| x) 0

/-- `get7BitChunkedInt` (util.go): synchsafe accumulation
`n = n<<7 | int(x)`. -/
def get7BitChunkedInt (b : List Nat) : Nat :=
  b.foldl (fun n x => (n <<< 7) ||| x) 0

/-- `readString` (util.go). -/
def readString (s : GoStream) (n : Int) : R (GoStr × GoStream) :=
  readBytes s n

/-- `readInt` (util.go). -/
def readInt (s : GoStream) (n : Int) : R (Int × GoStream) :=
  (readBytes s n).bind fun bs => .ok (Int.ofNat (getInt bs.1), bs.2)

/-- `read7BitChunkedInt` (util.go). -/
def read7BitChunkedInt (s : GoStream) (n : Int) : R (Int × GoStream) :=
  (readBytes s n).bind fun bs => .ok (Int.ofNat (get7BitChunkedInt bs.1), bs.2)

/-! ### SHA-1 (model of the Go standard library `crypto/sha1`) -/

/-- 32-bit truncation. -/
def w32 (n : Nat) : Nat := n % 4294967296

/-- 32-bit left rotation. -/
def rotl (k n : Nat) : Nat := w32 ((n <<< k) ||| (n >>> (32 - k)))

/-- Big-endian 32-bit word from four bytes. -/
def beWord (b : List Nat) : Nat := b.foldl (fun n x => n * 256 + x) 0

/-- The sixteen 32-bit words of one 64-byte block. -/
def blockWords (blk : List Nat) : List Nat :=
  (List.range 16).map (fun i => beWord ((blk.drop (4 * i)).take 4))

/-- Message-schedule extension, on the reversed word list (most recent
word first). -/
def sha1ExtendRev : Nat → List Nat → List Nat
  | 0, w => w
  | f + 1, w =>
      sha1ExtendRev f
        ((rotl 1 (((w.getD 2 0) ^^^ (w.getD 7 0)) ^^^ ((w.getD 13 0) ^^^ (w.getD 15 0)))) :: w)

/-- The 80-word message schedule of one block. -/
def sha1Schedule (blk : List Nat) : List Nat :=
  (sha1ExtendRev 64 (blockWords blk).reverse).reverse

/-- Round function. -/
def sha1F (i b c d : Nat) : Nat :=
  if i < 20 then (b &&& c) ||| ((b ^^^ 4294967295) &&& d)
  else if i < 40 then (b ^^^ c) ^^^ d
  else if i < 60 then ((b &&& c) ||| (b &&& d)) ||| (c &&& d)
  else (b ^^^ c) ^^^ d

/-- Round constants. -/
def sha1K (i : Nat) : Nat :=
  if i < 20 then 1518500249
  else if i < 40 then 1859775393
  else if i < 60 then 2400959708
  else 3395469782

/-- One compression round. -/
def sha1Round (st : Nat × Nat × Nat × Nat × Nat) (iw : Nat × Nat) :
    Nat × Nat × Nat × Nat × Nat :=
  match st, iw with
  | (a, b, c, d, e), (i, w) =>
      (w32 (rotl 5 a + sha1F i b c d + e + sha1K i + w), a, rotl 30 b, c, d)

/-- Compression of one 64-byte block into the running state. -/
def sha1Compress (h : Nat × Nat × Nat × Nat × Nat) (blk : List Nat) :
    Nat × Nat × Nat × Nat × Nat :=
  match h with
  | (h0, h1, h2, h3, h4) =>
      match (sha1Schedule blk).enum.foldl (fun st p => sha1Round st p)
          (h0, h1, h2, h3, h4) with
      | (a, b, c, d, e) =>
          (w32 (h0 + a), w32 (h1 + b), w32 (h2 + c), w32 (h3 + d), w32 (h4 + e))

/-- Fold the compression over `n` consecutive 64-byte blocks. -/
def sha1Blocks : Nat → (Nat × Nat × Nat × Nat × Nat) → List Nat → Nat × Nat × Nat × Nat × Nat
  | 0, h, _ => h
  | n + 1, h, l => sha1Blocks n (sha1Compress h (l.take 64)) (l.drop 64)

/-- Big-endian bytes of a value, fixed width. -/
def beBytes (k : Nat) (n : Nat) : List Nat :=
  (List.range k).map (fun i => (n >>> (8 * (k - 1 - i))) % 256)

/-- FIPS-180 padding: `0x80`, zeros to 56 mod 64, 8-byte big-endian bit
length. -/
def sha1Pad (m : List Nat) : List Nat :=
  m ++ [128] ++ List.replicate ((119 - m.length % 64) % 64) 0 ++ beBytes 8 (m.length * 8)

/-- SHA-1 digest (20 bytes) of a byte sequence. -/
def sha1 (m : List Nat) : List Nat :=
  match sha1Blocks ((sha1Pad m).length / 64)
      (1732584193, 4023233417, 2562383102, 271733878, 3285377520) (sha1Pad m) with
  | (h0, h1, h2, h3, h4) =>
      beBytes 4 h0 ++ beBytes 4 h1 ++ beBytes 4 h2 ++ beBytes 4 h3 ++ beBytes 4 h4

/-- Lowercase hexadecimal digit. -/
def hexDigit (n : Nat) : Char :=
  if n < 10 then Char.ofNat (48 + n) else Char.ofNat (87 + n)

/-- `fmt.Sprintf` with the `x` verb on a byte slice: lowercase hex. -/
def bytesToHex (b : List Nat) : String :=
  String.mk (b.foldr (fun x acc => hexDigit (x / 16) :: hexDigit (x % 16) :: acc) [])

/-- `hashSum` (sum.go): hex rendering of the accumulated SHA-1 state. -/
def hashSum (fed : List Nat) : String := bytesToHex (sha1 fed)

/-! ### ID3v2 header (id3v2.go) -/

/-- The `Format` enumeration (tag.go). -/
inductive Format where
  | id3v1 : Format
  | id3v2_2 : Format
  | id3v2_3 : Format
  | id3v2_4 : Format
  | mp4 : Format
  | vorbis : Format
  | flac : Format
deriving DecidableEq

/-- `ID3v2Header` (id3v2.go). -/
structure ID3v2Header where
  version : Format
  unsynchronisation : Bool
  extendedHeader : Bool
  experimental : Bool
  size : Int
deriving DecidableEq

/-- `readID3v2Header` (id3v2.go): ten bytes: "ID3", version, revision,
flags, 4-byte synchsafe size. -/
def readID3v2Header (s : GoStream) : R (ID3v2Header × GoStream) :=
  ((readBytes s 10).mapErr
      (fun e => .msg ("expected to read 10 bytes (ID3v2Header): " ++ e.text))).bind
    fun bs =>
      let b := bs.1
      if b.take 3 ≠ str ("ID3") then .err (.msg ("expected to read ID3"))
      else
        let b := b.drop 3
        let ver := b.getD 0 0
        if ver = 2 ∨ ver = 3 ∨ ver = 4 then
          .ok
            ({ version :=
                 if ver = 2 then .id3v2_2 else if ver = 3 then .id3v2_3 else .id3v2_4,
               unsynchronisation := getBit (b.getD 2 0) 7,
               extendedHeader := getBit (b.getD 2 0) 6,
               experimental := getBit (b.getD 2 0) 5,
               size := Int.ofNat (get7BitChunkedInt ((b.drop 3).take 4)) }, bs.2)
        else .err (.msg ("ID3 version: expected 2, 3 or 4"))

/-! ### Metadata-invariant checksum (sum.go) -/

/-- `sizeToEndOffset` (sum.go).  NB: `n` is the absolute offset returned by
`Seek(-128, SEEK_END)`, so the second seek (`-n` relative) always lands at
offset 0, not at the caller's previous position. -/
def sizeToEndOffset (s : GoStream) (offset : Int) : R (Int × GoStream) :=
  ((seek s (-128) .fromEnd).mapErr
      (fun e => .msg ("error seeking end offset: " ++ e.text))).bind fun ns =>
    ((seek ns.2 (-ns.1) .cur).mapErr
        (fun e => .msg ("error seeking back to original position: " ++ e.text))).bind
      fun ps => .ok (ns.1, ps.2)

/-- `SumAll` (sum.go): checksum of the remaining content. -/
def SumAll (s : GoStream) : R String :=
  (readAll s).bind fun bs => .ok (hashSum bs.1)

/-- `SumAtoms` (sum.go): walks MP4 atoms until `mdat` and hashes its
payload.  The unbounded `for` loop is modelled with explicit fuel; the
`uint32` size arithmetic `size-8` wraps modulo `2^32`. -/
def SumAtoms : Nat → GoStream → R String
  | 0, _ => .err (.msg ("model: atom loop fuel exhausted"))
  | fuel + 1, s =>
      ((readBytes s 4).mapErr (fun _ => .msg ("reached EOF before audio data"))).bind
        fun szs =>
          let size := getInt szs.1
          (readString szs.2 4).bind fun ns =>
            let name := ns.1
            let skip : Int := Int.ofNat ((size + 4294967296 - 8) % 4294967296)
            if name = str ("meta") then
              (seek ns.2 4 .cur).bind fun ss => SumAtoms fuel ss.2
            else if name = str ("moov") ∨ name = str ("udta") ∨ name = str ("ilst") then
              SumAtoms fuel ns.2
            else if name = str ("mdat") then
              ((copyN ns.2 skip).mapErr
                  (fun e => .msg ("error reading audio data: " ++ e.text))).bind
                fun bs => .ok (hashSum bs.1)
            else
              ((seek ns.2 skip .cur).mapErr
                  (fun e => .msg ("error reading tag: " ++ e.text))).bind
                fun ss => SumAtoms fuel ss.2

/-- `SumID3v1` (sum.go): hashes from offset 0 up to 128 bytes before the
end (the region `sizeToEndOffset` leaves it at). -/
def SumID3v1 (s : GoStream) : R String :=
  ((sizeToEndOffset s 128).mapErr
      (fun e => .msg ("error determining read size to ID3v1 header: " ++ e.text))).bind
    fun ns =>
      if ns.1 ≤ 0 then
        .err (.msg ("file size must be greater than 128 bytes (ID3v1 header size) for MP3"))
      else
        ((copyN ns.2 ns.1).mapErr (fun e => .msg ("error reading bytes: " ++ e.text))).bind
          fun bs => .ok (hashSum bs.1)

/-- `SumID3v2` (sum.go): reads the ID3v2 header, seeks past the tag body,
then uses `sizeToEndOffset` — which repositions to offset 0 — and hashes
`filesize - 128` bytes from there. -/
def SumID3v2 (s : GoStream) : R String :=
  ((readID3v2Header s).mapErr
      (fun e => .msg ("error reading ID3v2 header: " ++ e.text))).bind fun hs =>
    ((seek hs.2 hs.1.size .cur).mapErr
        (fun e => .msg ("error seeking to end of ID3V2 header: " ++ e.text))).bind
      fun ss =>
        ((sizeToEndOffset ss.2 128).mapErr
            (fun e => .msg ("error determining read size to ID3v1 header: " ++ e.text))).bind
          fun ns =>
            if ns.1 < 0 then
              .err (.msg ("file size must be greater than 128 bytes for MP3"))
            else
              ((copyN ns.2 ns.1).mapErr
                  (fun e => .msg ("error reading bytes: " ++ e.text))).bind
                fun bs => .ok (hashSum bs.1)

/-- `Sum` (sum.go): sniffs 11 bytes, seeks back, and dispatches to the
per-format checksum; a `SumID3v1` failure with `ErrNotID3v1` falls back to
`SumAll`. -/
def Sum (s : GoStream) : R String :=
  (readBytes s 11).bind fun bs =>
    ((seek bs.2 (-11) .cur).mapErr
        (fun e => .msg ("could not seek back to original position: " ++ e.text))).bind
      fun ss =>
        let b := bs.1
        if b.drop 4 = str ("ftypM4A") then SumAtoms (s.data.length + 1) ss.2
        else if b.take 3 = str ("ID3") then SumID3v2 ss.2
        else
          match SumID3v1 ss.2 with
          | .err .notID3v1 => SumAll ss.2
          | r => r

/-! ### Metadata-invariant hash (hash/hash.go) -/

/-- `hash` (hash/hash.go): hex SHA-1 of a byte slice. -/
def goHash (b : List Nat) : String := bytesToHex (sha1 b)

/-- `HashAll` (hash/hash.go). -/
def HashAll (s : GoStream) : R String :=
  ((seek s 0 .set).mapErr (fun e => .msg ("error seeking to 0: " ++ e.text))).bind
    fun ss => (readAll ss.2).bind fun bs => .ok (goHash bs.1)

/-- The `for` loop of `HashAtoms` (hash/hash.go): on a
`moov`/`udta`/`ilst`/`meta` container the source returns the recursive call
`HashAtoms(r)`, whose first action is to re-seek to offset 0 — that
restart-from-the-top is inlined here.  The `free` atom is skipped
explicitly.  Fuel models the unbounded recursion. -/
def HashAtomsLoop : Nat → GoStream → R String
  | 0, _ => .err (.msg ("model: atom loop fuel exhausted"))
  | fuel + 1, s =>
      ((readBytes s 4).mapErr (fun _ => .msg ("reached EOF before audio data"))).bind
        fun szs =>
          let size := getInt szs.1
          (readString szs.2 4).bind fun ns =>
            let name := ns.1
            let skip : Int := Int.ofNat ((size + 4294967296 - 8) % 4294967296)
            if name = str ("meta") then
              (readBytes ns.2 4).bind fun bs =>
                ((seek bs.2 0 .set).mapErr
                    (fun e => .msg ("error seeking to 0: " ++ e.text))).bind
                  fun s0 => HashAtomsLoop fuel s0.2
            else if name = str ("moov") ∨ name = str ("udta") ∨ name = str ("ilst") then
              ((seek ns.2 0 .set).mapErr
                  (fun e => .msg ("error seeking to 0: " ++ e.text))).bind
                fun s0 => HashAtomsLoop fuel s0.2
            else if name = str ("free") then
              ((seek ns.2 skip .cur).mapErr
                  (fun e => .msg ("error reading free space: " ++ e.text))).bind
                fun ss => HashAtomsLoop fuel ss.2
            else if name = str ("mdat") then
              ((readBytes ns.2 skip).mapErr
                  (fun e => .msg ("error reading audio data: " ++ e.text))).bind
                fun bs => .ok (goHash bs.1)
            else
              ((seek ns.2 skip .cur).mapErr
                  (fun e => .msg ("error reading tag: " ++ e.text))).bind
                fun ss => HashAtomsLoop fuel ss.2

/-- `HashAtoms` (hash/hash.go): re-seeks to offset 0, then runs the atom
loop. -/
def HashAtoms (fuel : Nat) (s : GoStream) : R String :=
  ((seek s 0 .set).mapErr (fun e => .msg ("error seeking to 0: " ++ e.text))).bind
    fun s0 => HashAtomsLoop fuel s0.2

/-- `HashID3v1` (hash/hash.go): re-seeks to 0, reads everything, and hashes
all but the trailing 128 bytes (reporting an error below 128 bytes). -/
def HashID3v1 (s : GoStream) : R String :=
  ((seek s 0 .set).mapErr (fun e => .msg ("error seeking to 0: " ++ e.text))).bind
    fun ss =>
      (readAll ss.2).bind fun bs =>
        let b := bs.1
        if b.length < 128 then
          .err (.msg ("file size must be greater than 128 bytes for ID3v1 metadata"))
        else .ok (goHash (b.take (b.length - 128)))

/-- `HashID3v2` (hash/hash.go): reads the ID3v2 header, seeks to absolute
offset `Size` (forgetting the 10 header bytes), reads the rest and hashes
all but the trailing 128 bytes. -/
def HashID3v2 (s : GoStream) : R String :=
  ((seek s 0 .set).mapErr (fun e => .msg ("error seeking to 0: " ++ e.text))).bind
    fun s0 =>
      ((readID3v2Header s0.2).mapErr
          (fun e => .msg ("error reading ID3v2 header: " ++ e.text))).bind fun hs =>
        ((seek hs.2 hs.1.size .set).mapErr
            (fun e => .msg ("error seeking to end of ID3V2 header: " ++ e.text))).bind
          fun ss =>
            ((readAll ss.2).mapErr
                (fun e => .msg ("error reading audio data: " ++ e.text))).bind fun bs =>
              let b := bs.1
              if b.length < 128 then
                .err (.msg ("file size must be greater than 128 bytes for MP3"))
              else .ok (goHash (b.take (b.length - 128)))

/-- `Hash` (hash/hash.go): sniffs 11 bytes (without seeking back — each
branch re-seeks itself) and dispatches; `ErrNotID3v1` from `HashID3v1`
falls back to `HashAll`. -/
def Hash (s : GoStream) : R String :=
  (readBytes s 11).bind fun bs =>
    let b := bs.1
    if b.drop 4 = str ("ftypM4A") then HashAtoms (s.data.length + 1) bs.2
    else if b.take 3 = str ("ID3") then HashID3v2 bs.2
    else
      match HashID3v1 bs.2 with
      | .err .notID3v1 => HashAll bs.2
      | r => r

/-! ### Concrete sample streams used by the checksum claims -/

/-- A 129-byte audio payload (first bytes match no tag magic). -/
def samplePayload : List Nat := List.replicate 129 1

/-- An ID3v1 trailer: `TAG` followed by 125 field bytes. -/
def sampleID3v1Trailer : List Nat := str ("TAG") ++ List.replicate 125 0

/-- A 20-byte ID3v2.3 tag: 10-byte header with synchsafe size 10, then a
10-byte (padding) tag body. -/
def sampleID3v2Tag : List Nat := str ("ID3") ++ [3, 0, 0] ++ [0, 0, 0, 10] ++ List.replicate 10 0

/-- A 128-byte stream that matches no tag magic. -/
def sample128 : List Nat := List.replicate 128 1

/-! ### Helper lemmas about the embedded primitives -/

theorem sumID3v1_not_notID3v1 (s : GoStream) : SumID3v1 s ≠ R.err .notID3v1 := by
  unfold SumID3v1
  rcases h : (sizeToEndOffset s 128).mapErr
      (fun e => .msg ("error determining read size to ID3v1 header: " ++ e.text)) with
    a | e | _
  · rcases a with ⟨n, s1⟩
    by_cases hn : n ≤ 0
    · simp [R.bind, hn]
    · simp only [R.bind, hn, if_false]
      rcases h2 : (copyN s1 n).mapErr (fun e => .msg ("error reading bytes: " ++ e.text)) with
        b | e2 | _
      · simp [R.bind, h2]
      · rcases h3 : copyN s1 n with b | e3 | _ <;> simp [h3, R.mapErr] at h2 <;> simp [R.bind, h2]
        subst h2; simp
      · simp [R.bind, h2]
  · rcases h3 : sizeToEndOffset s 128 with b | e3 | _ <;> simp [h3, R.mapErr] at h <;>
      simp [R.bind, h]
    subst h; simp
  · simp [R.bind, h]

theorem hashID3v1_not_notID3v1 (s : GoStream) : HashID3v1 s ≠ R.err .notID3v1 := by
  unfold HashID3v1
  rcases h : (seek s 0 .set).mapErr (fun e => .msg ("error seeking to 0: " ++ e.text)) with
    a | e | _
  · rcases a with ⟨n, s1⟩
    simp only [R.bind, readAll]
    split <;> simp
  · rcases h3 : seek s 0 .set with b | e3 | _ <;> simp [h3, R.mapErr] at h <;> simp [R.bind, h]
    subst h; simp
  · simp [R.bind, h]

theorem readBytes_ofNat_ok (data : List Nat) (p k : Nat) (h : p + k ≤ data.length) :
    readBytes ⟨data, p⟩ (Int.ofNat k) = .ok ((data.drop p).take k, ⟨data, p + k⟩) := by
  simp [readBytes, h]

theorem seek_back_eleven (data : List Nat) :
    seek ⟨data, 11⟩ (-11) .cur = .ok (0, ⟨data, 0⟩) := by
  simp [seek]

/-- `SumID3v1` on a stream at any position: either the stream is at most
128 bytes long (error), or it hashes everything except the final 128
bytes. -/
theorem sumID3v1_eval (data : List Nat) (p : Nat) :
    (128 < data.length →
      SumID3v1 ⟨data, p⟩ = R.ok (hashSum (data.take (data.length - 128)))) ∧
    (data.length ≤ 128 → ∃ m, SumID3v1 ⟨data, p⟩ = R.err (.msg m)) := by
  constructor
  · intro hlen
    have h1 : seek ⟨data, p⟩ (-128) .fromEnd =
        .ok ((data.length : Int) - 128, ⟨data, data.length - 128⟩) := by
      simp only [seek]
      rw [if_neg (by omega)]
      rw [show ((data.length : Int) + (-128)) = (data.length : Int) - 128 from by ring]
      rw [show ((data.length : Int) - 128).toNat = data.length - 128 from by omega]
    have h2 : seek ⟨data, data.length - 128⟩ (-((data.length : Int) - 128)) .cur =
        .ok (0, ⟨data, 0⟩) := by
      simp only [seek]
      rw [show ((data.length - 128 : Nat) : Int) + -((data.length : Int) - 128) = 0 from
        by omega]
      rw [if_neg (by omega)]
      rfl
    have h3 : sizeToEndOffset ⟨data, p⟩ 128 =
        .ok ((data.length : Int) - 128, ⟨data, 0⟩) := by
      simp only [sizeToEndOffset, h1, R.mapErr, R.bind, h2]
    simp only [SumID3v1, h3, R.mapErr, R.bind]
    rw [if_neg (by omega)]
    have h4 : copyN ⟨data, 0⟩ ((data.length : Int) - 128) =
        .ok (data.take (data.length - 128), ⟨data, data.length - 128⟩) := by
      simp only [copyN]
      rw [show ((data.length : Int) - 128).toNat = data.length - 128 from by omega]
      rw [if_neg (by omega), if_pos (by omega)]
      simp
    simp only [h4, R.mapErr, R.bind]
  · intro hlen
    by_cases hsmall : data.length < 128
    · have h1 : seek ⟨data, p⟩ (-128) .fromEnd = .err (.msg ("negative seek position")) := by
        simp only [seek]
        rw [if_pos (by omega)]
      refine ⟨"error determining read size to ID3v1 header: " ++
        ("error seeking end offset: " ++ "negative seek position"), ?_⟩
      simp only [SumID3v1, sizeToEndOffset, h1, R.mapErr, R.bind, GoError.text]
    · have hexact : data.length = 128 := by omega
      refine ⟨"file size must be greater than 128 bytes (ID3v1 header size) for MP3", ?_⟩
      have h1 : seek ⟨data, p⟩ (-128) .fromEnd = .ok (0, ⟨data, 0⟩) := by
        simp only [seek]
        rw [if_neg (by omega)]
        rw [show ((data.length : Int) + (-128)) = 0 from by omega]
        rfl
      have h2 : seek ⟨data, 0⟩ (-(0 : Int)) .cur = .ok (0, ⟨data, 0⟩) := by
        simp [seek]
      have h3 : sizeToEndOffset ⟨data, p⟩ 128 = .ok (0, ⟨data, 0⟩) := by
        simp only [sizeToEndOffset, h1, R.mapErr, R.bind]
        simpa using h2
      simp only [SumID3v1, h3, R.mapErr, R.bind]
      rw [if_pos (by omega)]

/-- Dispatch shape of `Sum` when neither the MP4 nor the ID3v2 magic
matches: it is exactly the `SumID3v1` fallback from offset 0. -/
theorem sum_eval_untagged (data : List Nat) (hlen : 11 ≤ data.length)
    (hm4a : (data.drop 4).take 7 ≠ str ("ftypM4A"))
    (hid3 : data.take 3 ≠ str ("ID3")) :
    Sum ⟨data, 0⟩ = SumID3v1 ⟨data, 0⟩ := by
  have h1 : readBytes ⟨data, 0⟩ 11 = .ok (data.take 11, ⟨data, 11⟩) := by
    have := readBytes_ofNat_ok data 0 11 (by omega)
    simpa using this
  have hb1 : (data.take 11).drop 4 = (data.drop 4).take 7 := by
    rw [List.drop_take]
  have hb2 : (data.take 11).take 3 = data.take 3 := by
    rw [List.take_take]
    norm_num
  simp only [Sum, h1, R.bind, seek_back_eleven, R.mapErr, hb1, hb2, if_neg hm4a, if_neg hid3]
  rcases h : SumID3v1 ⟨data, 0⟩ with a | e | _
  · rfl
  · have := sumID3v1_not_notID3v1 ⟨data, 0⟩
    rw [h] at this
    rcases e with _ | _ | m
    · simp at this
    · rfl
    · rfl
  · rfl

/-- `HashID3v1` on a stream at any position re-seeks to 0: it hashes
everything but the final 128 bytes when at least 128 bytes exist, and
errors otherwise. -/
theorem hashID3v1_eval (data : List Nat) (p : Nat) :
    (128 ≤ data.length →
      HashID3v1 ⟨data, p⟩ = R.ok (goHash (data.take (data.length - 128)))) ∧
    (data.length < 128 → ∃ m, HashID3v1 ⟨data, p⟩ = R.err (.msg m)) := by
  have h0 : seek ⟨data, p⟩ 0 .set = .ok (0, ⟨data, 0⟩) := by
    simp [seek]
  constructor
  · intro hlen
    simp only [HashID3v1, h0, R.mapErr, R.bind, readAll, List.drop_zero]
    rw [if_neg (by omega)]
  · intro hlen
    refine ⟨"file size must be greater than 128 bytes for ID3v1 metadata", ?_⟩
    simp only [HashID3v1, h0, R.mapErr, R.bind, readAll, List.drop_zero]
    rw [if_pos (by omega)]

/-- Dispatch shape of `Hash` when neither the MP4 nor the ID3v2 magic
matches: it is exactly the `HashID3v1` fallback (which re-seeks to 0). -/
theorem hash_eval_untagged (data : List Nat) (hlen : 11 ≤ data.length)
    (hm4a : (data.drop 4).take 7 ≠ str ("ftypM4A"))
    (hid3 : data.take 3 ≠ str ("ID3")) :
    Hash ⟨data, 0⟩ = HashID3v1 ⟨data, 11⟩ := by
  have h1 : readBytes ⟨data, 0⟩ 11 = .ok (data.take 11, ⟨data, 11⟩) := by
    have := readBytes_ofNat_ok data 0 11 (by omega)
    simpa using this
  have hb1 : (data.take 11).drop 4 = (data.drop 4).take 7 := by
    rw [List.drop_take]
  have hb2 : (data.take 11).take 3 = data.take 3 := by
    rw [List.take_take]
    norm_num
  simp only [Hash, h1, R.bind, hb1, hb2, if_neg hm4a, if_neg hid3]
  rcases h : HashID3v1 ⟨data, 11⟩ with a | e | _
  · rfl
  · have := hashID3v1_not_notID3v1 ⟨data, 11⟩
    rw [h] at this
    rcases e with _ | _ | m
    · simp at this
    · rfl
    · rfl
  · rfl

/-! ### Claim C1 -/

/-- C1: the claim says `Sum` yields the same digest for an audio payload
wrapped in no tags, in an ID3v2 tag, and with an ID3v1 trailer appended.
The code does not: the bare payload loses its last 128 bytes (`SumID3v1`
assumes an ID3v1 trailer unconditionally), and the ID3v2 wrapping is hashed
tag-included because `sizeToEndOffset` repositions to offset 0 instead of
the post-tag offset.  All three digests are pairwise distinct. -/
theorem sum_digest_depends_on_tags :
    Sum ⟨samplePayload, 0⟩ = R.ok (hashSum (samplePayload.take 1)) ∧
    Sum ⟨samplePayload ++ sampleID3v1Trailer, 0⟩ = R.ok (hashSum samplePayload) ∧
    Sum ⟨sampleID3v2Tag ++ samplePayload, 0⟩ =
      R.ok (hashSum ((sampleID3v2Tag ++ samplePayload).take 21)) ∧
    Sum ⟨samplePayload, 0⟩ ≠ Sum ⟨samplePayload ++ sampleID3v1Trailer, 0⟩ ∧
    Sum ⟨sampleID3v2Tag ++ samplePayload, 0⟩ ≠
      Sum ⟨samplePayload ++ sampleID3v1Trailer, 0⟩ ∧
    Sum ⟨samplePayload, 0⟩ ≠ Sum ⟨sampleID3v2Tag ++ samplePayload, 0⟩ := by
  decide

/-! ### Claim C9 -/

/-- C9: with neither the `ftypM4A` nor the `ID3` magic, `Sum` is the
`SumID3v1` path from offset 0: the SHA-1 of the stream minus its final 128
bytes when longer than 128 bytes, an error otherwise; and the `SumAll`
fallback is unreachable because `SumID3v1` never returns `ErrNotID3v1`. -/
theorem sum_untagged_drops_trailer (data : List Nat) (hlen : 11 ≤ data.length)
    (hm4a : (data.drop 4).take 7 ≠ str ("ftypM4A"))
    (hid3 : data.take 3 ≠ str ("ID3")) :
    (128 < data.length →
      Sum ⟨data, 0⟩ = R.ok (hashSum (data.take (data.length - 128)))) ∧
    (data.length ≤ 128 → ∃ m, Sum ⟨data, 0⟩ = R.err (.msg m)) ∧
    (∀ s : GoStream, SumID3v1 s ≠ R.err .notID3v1) ∧
    Sum ⟨data, 0⟩ = SumID3v1 ⟨data, 0⟩ := by
  have hd := sum_eval_untagged data hlen hm4a hid3
  have he := sumID3v1_eval data 0
  refine ⟨?_, ?_, sumID3v1_not_notID3v1, hd⟩
  · intro h
    rw [hd]
    exact he.1 h
  · intro h
    rw [hd]
    exact he.2 h

/-- Witness for C9 at a concrete 140-byte untagged stream. -/
theorem sum_untagged_drops_trailer_witness :
    (11 ≤ (List.replicate 140 1 : List Nat).length ∧
      ((List.replicate 140 1 : List Nat).drop 4).take 7 ≠ str ("ftypM4A") ∧
      (List.replicate 140 1 : List Nat).take 3 ≠ str ("ID3")) ∧
    (128 < (List.replicate 140 1 : List Nat).length →
      Sum ⟨List.replicate 140 1, 0⟩ =
        R.ok (hashSum ((List.replicate 140 1 : List Nat).take
          ((List.replicate 140 1 : List Nat).length - 128)))) ∧
    ((List.replicate 140 1 : List Nat).length ≤ 128 →
      ∃ m, Sum ⟨List.replicate 140 1, 0⟩ = R.err (.msg m)) ∧
    (∀ s : GoStream, SumID3v1 s ≠ R.err .notID3v1) ∧
    Sum ⟨List.replicate 140 1, 0⟩ = SumID3v1 ⟨List.replicate 140 1, 0⟩ :=
  ⟨⟨by decide, by decide, by decide⟩,
    sum_untagged_drops_trailer (List.replicate 140 1) (by decide) (by decide) (by decide)⟩

/-! ### Claim C7 -/

/-- The agreement relation claim C7 states between `Sum` and `Hash` on one
stream: both fail, or both succeed with the same digest. -/
def sumHashAgree (data : List Nat) : Bool :=
  match Sum ⟨data, 0⟩, Hash ⟨data, 0⟩ with
  | .err _, .err _ => true
  | .ok d1, .ok d2 => d1 == d2
  | _, _ => false

/-- C7 counterexample: on a 128-byte untagged stream `Sum` fails while
`Hash` succeeds, and on an ID3v2-tagged stream both succeed with different
digests (`Sum` hashes from offset 0, `Hash` from the tag-size offset). -/
theorem sum_hash_disagree :
    sumHashAgree sample128 = false ∧
    sumHashAgree (sampleID3v2Tag ++ samplePayload) = false := by
  decide

/-- C7 amended: for streams matching neither the MP4 nor the ID3v2 magic
and whose length is not exactly 128, `Sum` and `Hash` either both fail or
both return the same digest. -/
theorem sum_hash_agree_untagged (data : List Nat)
    (hm4a : (data.drop 4).take 7 ≠ str ("ftypM4A"))
    (hid3 : data.take 3 ≠ str ("ID3"))
    (hlen : data.length ≠ 128) :
    sumHashAgree data = true := by
  by_cases hshort : data.length < 11
  · have hs : readBytes ⟨data, 0⟩ 11 = .err (.msg ("unexpected EOF")) := by
      simp only [readBytes]
      rw [if_neg (by omega), if_neg (by simp; omega)]
    simp only [sumHashAgree, Sum, Hash, hs, R.bind]
  · have h11 : 11 ≤ data.length := by omega
    have hsum := sum_eval_untagged data h11 hm4a hid3
    have hhash := hash_eval_untagged data h11 hm4a hid3
    by_cases hbig : 128 < data.length
    · have h1 := (sumID3v1_eval data 0).1 hbig
      have h2 := (hashID3v1_eval data 11).1 (by omega)
      simp only [sumHashAgree, hsum, hhash, h1, h2, hashSum, goHash]
      simp
    · have hsmall : data.length < 128 := by omega
      obtain ⟨m1, h1⟩ := (sumID3v1_eval data 0).2 (by omega)
      obtain ⟨m2, h2⟩ := (hashID3v1_eval data 11).2 hsmall
      simp only [sumHashAgree, hsum, hhash, h1, h2]

/-- Witness for the amended C7 at a concrete 200-byte untagged stream. -/
theorem sum_hash_agree_untagged_witness :
    (((List.replicate 200 7 : List Nat).drop 4).take 7 ≠ str ("ftypM4A") ∧
      (List.replicate 200 7 : List Nat).take 3 ≠ str ("ID3") ∧
      (List.replicate 200 7 : List Nat).length ≠ 128) ∧
    sumHashAgree (List.replicate 200 7) = true :=
  ⟨⟨by decide, by decide, by decide⟩,
    sum_hash_agree_untagged (List.replicate 200 7) (by decide) (by decide) (by decide)⟩

/-! ### Format dispatch (tag.go) -/

/-- `ReadFrom` (tag.go), with the five decoders (`ReadFLACTags`,
`ReadOGGTags`, `ReadAtoms`, `ReadID3v2Tags`, `ReadID3v1Tags`) abstracted as
parameters: reads 11 sniff bytes (without seeking back) and dispatches on
the magic prefixes in source order; an `ErrNotID3v1` failure of the ID3v1
decoder becomes `ErrNoTagsFound`. -/
def ReadFromD {α : Type} (decF decO decM decI decV : GoStream → R α) (s : GoStream) : R α :=
  (readBytes s 11).bind fun bs =>
    let b := bs.1
    if b.take 4 = str ("fLaC") then decF bs.2
    else if b.take 4 = str ("OggS") then decO bs.2
    else if b.drop 4 = str ("ftypM4A") then decM bs.2
    else if b.take 3 = str ("ID3") then decI bs.2
    else
      match decV bs.2 with
      | .err .notID3v1 => .err .noTagsFound
      | r => r

/-- Opening of `ReadOGGTags` (ogg.go): reads 4 bytes at the *current*
offset (no seek) and requires the `OggS` capture pattern; the rest of the
parse is the abstract continuation `rest`. -/
def ReadOGGTagsOpen {α : Type} (rest : GoStream → R α) (s : GoStream) : R α :=
  (readString s 4).bind fun os =>
    if os.1 ≠ str ("OggS") then .err (.msg ("expected OggS")) else rest os.2

/-- Opening of `ReadFLACTags` (flac.go): seeks to offset 0, then reads and
checks the `fLaC` marker; the rest of the parse is abstract. -/
def ReadFLACTagsOpen {α : Type} (rest : GoStream → R α) (s : GoStream) : R α :=
  (seek s 0 .set).bind fun ss =>
    (readString ss.2 4).bind fun fs =>
      if fs.1 ≠ str ("fLaC") then .err (.msg ("expected fLaC")) else rest fs.2

/-- Opening of `ReadAtoms` (mp4.go): seeks to offset 0, then walks atoms
(abstract). -/
def ReadAtomsOpen {α : Type} (rest : GoStream → R α) (s : GoStream) : R α :=
  (seek s 0 .set).bind fun ss => rest ss.2

/-- Opening of `ReadID3v2Tags` (id3v2.go): seeks to offset 0, then reads
the ID3v2 header; the frame parsing is abstract. -/
def ReadID3v2TagsOpen {α : Type} (rest : ID3v2Header → GoStream → R α) (s : GoStream) : R α :=
  (seek s 0 .set).bind fun ss =>
    (readID3v2Header ss.2).bind fun hs => rest hs.1 hs.2

/-! ### Claim C2 -/

/-- C2: for streams of at least 11 bytes `ReadFrom` dispatches in priority
order on `fLaC` (bytes 0-3), `OggS` (bytes 0-3), `ftypM4A` (bytes 4-10),
`ID3` (bytes 0-2), and otherwise attempts the ID3v1 parse, converting its
`ErrNotID3v1` failure into the distinguished `ErrNoTagsFound`. -/
theorem readFrom_dispatch {α : Type} (decF decO decM decI decV : GoStream → R α)
    (data : List Nat) (hlen : 11 ≤ data.length) :
    (data.take 4 = str ("fLaC") →
      ReadFromD decF decO decM decI decV ⟨data, 0⟩ = decF ⟨data, 11⟩) ∧
    (data.take 4 ≠ str ("fLaC") → data.take 4 = str ("OggS") →
      ReadFromD decF decO decM decI decV ⟨data, 0⟩ = decO ⟨data, 11⟩) ∧
    (data.take 4 ≠ str ("fLaC") → data.take 4 ≠ str ("OggS") →
      (data.drop 4).take 7 = str ("ftypM4A") →
      ReadFromD decF decO decM decI decV ⟨data, 0⟩ = decM ⟨data, 11⟩) ∧
    (data.take 4 ≠ str ("fLaC") → data.take 4 ≠ str ("OggS") →
      (data.drop 4).take 7 ≠ str ("ftypM4A") → data.take 3 = str ("ID3") →
      ReadFromD decF decO decM decI decV ⟨data, 0⟩ = decI ⟨data, 11⟩) ∧
    (data.take 4 ≠ str ("fLaC") → data.take 4 ≠ str ("OggS") →
      (data.drop 4).take 7 ≠ str ("ftypM4A") → data.take 3 ≠ str ("ID3") →
      ReadFromD decF decO decM decI decV ⟨data, 0⟩ =
        match decV ⟨data, 11⟩ with
        | .err .notID3v1 => .err .noTagsFound
        | r => r) := by
  have h1 : readBytes ⟨data, 0⟩ 11 = .ok (data.take 11, ⟨data, 11⟩) := by
    have := readBytes_ofNat_ok data 0 11 (by omega)
    simpa using this
  have hb4 : (data.take 11).take 4 = data.take 4 := by
    rw [List.take_take]
    norm_num
  have hb7 : (data.take 11).drop 4 = (data.drop 4).take 7 := by
    rw [List.drop_take]
  have hb3 : (data.take 11).take 3 = data.take 3 := by
    rw [List.take_take]
    norm_num
  refine ⟨?_, ?_, ?_, ?_, ?_⟩
  · intro h
    simp only [ReadFromD, h1, R.bind, hb4, if_pos h]
  · intro hf h
    simp only [ReadFromD, h1, R.bind, hb4, if_neg hf, if_pos h]
  · intro hf ho h
    simp only [ReadFromD, h1, R.bind, hb4, hb7, if_neg hf, if_neg ho, if_pos h]
  · intro hf ho hm h
    simp only [ReadFromD, h1, R.bind, hb4, hb7, hb3, if_neg hf, if_neg ho, if_neg hm,
      if_pos h]
  · intro hf ho hm hi
    simp only [ReadFromD, h1, R.bind, hb4, hb7, hb3, if_neg hf, if_neg ho, if_neg hm,
      if_neg hi]

/-- Witness for C2: the dispatch equalities at a concrete `fLaC` stream and
concrete decoders. -/
theorem readFrom_dispatch_witness :
    (11 ≤ (str ("fLaC") ++ List.replicate 7 0 : List Nat).length) ∧
    ((str ("fLaC") ++ List.replicate 7 0 : List Nat).take 4 = str ("fLaC") →
      ReadFromD (fun _ => R.ok 1) (fun _ => R.ok 2) (fun _ => R.ok 3) (fun _ => R.ok 4)
          (fun _ => R.ok (5 : Nat)) ⟨str ("fLaC") ++ List.replicate 7 0, 0⟩ =
        (fun _ => R.ok 1) (⟨str ("fLaC") ++ List.replicate 7 0, 11⟩ : GoStream)) :=
  ⟨by decide,
    (readFrom_dispatch (fun _ => R.ok 1) (fun _ => R.ok 2) (fun _ => R.ok 3) (fun _ => R.ok 4)
      (fun _ => R.ok (5 : Nat)) (str ("fLaC") ++ List.replicate 7 0) (by decide)).1⟩

/-! ### Claim C8 -/

/-- A 30-byte stream beginning with the `OggS` capture pattern. -/
def sampleOGGStream : List Nat := str ("OggS") ++ List.replicate 26 0

/-- C8: `ReadFrom` consumes the 11 sniff bytes without seeking back, and
the OGG decoder — unlike the FLAC, MP4 and ID3v2 decoders, whose openings
are position-independent because they seek to 0 first — parses at the
handed-over offset 11, so on an OGG stream it fails to find the `OggS`
pattern it already matched at offset 0. -/
theorem readFrom_ogg_offset :
    (∀ (α : Type) (decF decO decM decI decV : GoStream → R α),
      ReadFromD decF decO decM decI decV ⟨sampleOGGStream, 0⟩ = decO ⟨sampleOGGStream, 11⟩) ∧
    (∀ (α : Type) (rest : GoStream → R α) (decF decM decI decV : GoStream → R α),
      ReadFromD decF (ReadOGGTagsOpen rest) decM decI decV ⟨sampleOGGStream, 0⟩ =
        .err (.msg ("expected OggS"))) ∧
    (∀ (α : Type) (rest : GoStream → R α),
      ReadOGGTagsOpen rest ⟨sampleOGGStream, 0⟩ = rest ⟨sampleOGGStream, 4⟩) ∧
    (∀ (α : Type) (rest : GoStream → R α) (s : GoStream),
      ReadFLACTagsOpen rest s = ReadFLACTagsOpen rest ⟨s.data, 0⟩) ∧
    (∀ (α : Type) (rest : GoStream → R α) (s : GoStream),
      ReadAtomsOpen rest s = ReadAtomsOpen rest ⟨s.data, 0⟩) ∧
    (∀ (α : Type) (rest : ID3v2Header → GoStream → R α) (s : GoStream),
      ReadID3v2TagsOpen rest s = ReadID3v2TagsOpen rest ⟨s.data, 0⟩) := by
  have hseek : ∀ s : GoStream, seek s 0 .set = .ok (0, ⟨s.data, 0⟩) := by
    intro s
    simp [seek]
  have h1 : readBytes ⟨sampleOGGStream, 0⟩ 11 =
      .ok (sampleOGGStream.take 11, ⟨sampleOGGStream, 11⟩) := by
    decide
  have h2 : readString ⟨sampleOGGStream, 11⟩ 4 =
      .ok ((sampleOGGStream.drop 11).take 4, ⟨sampleOGGStream, 15⟩) := by
    decide
  have h3 : readString ⟨sampleOGGStream, 0⟩ 4 =
      .ok (str ("OggS"), ⟨sampleOGGStream, 4⟩) := by
    decide
  refine ⟨?_, ?_, ?_, ?_, ?_, ?_⟩
  · intro α decF decO decM decI decV
    simp only [ReadFromD, h1, R.bind]
    rw [if_neg (by decide), if_pos (by decide)]
  · intro α rest decF decM decI decV
    simp only [ReadFromD, h1, R.bind]
    rw [if_neg (by decide), if_pos (by decide)]
    simp only [ReadOGGTagsOpen, h2, R.bind]
    rw [if_pos (by decide)]
  · intro α rest
    simp only [ReadOGGTagsOpen, h3, R.bind]
    rw [if_neg (by decide)]
  · intro α rest s
    simp only [ReadFLACTagsOpen, hseek, R.bind]
  · intro α rest s
    simp only [ReadAtomsOpen, hseek, R.bind]
  · intro α rest s
    simp only [ReadID3v2TagsOpen, hseek, R.bind]

/-! ### Unsynchronisation filter (id3v2.go, `unsynchroniser.Read`) -/

/-- One `Read(p)` call of the `unsynchroniser` filter with a buffer of `n`
bytes: pulls single bytes from the remaining input until `n` output bytes
are produced or the input is exhausted, dropping every 0x00 byte while the
`ff` flag (previous byte was 0xFF) is set.  Returns the emitted bytes, the
final flag and the unconsumed input. -/
def unsyncRead : Nat → Bool → List Nat → List Nat × Bool × List Nat
  | _, ff, [] => ([], ff, [])
  | 0, ff, inp => ([], ff, inp)
  | n + 1, ff, b :: rest =>
      if ff && b == 0 then unsyncRead (n + 1) false rest
      else
        match unsyncRead n (b == 255) rest with
        | (out, ff2, rem) => (b :: out, ff2, rem)

/-- The whole-stream transform the filter computes from flag state `ff`. -/
def unsyncAll : Bool → List Nat → List Nat
  | _, [] => []
  | ff, b :: rest =>
      if ff && b == 0 then unsyncAll false rest else b :: unsyncAll (b == 255) rest

/-- The transform exactly as claim C3 words it: remove every 0x00 byte
that immediately follows a 0xFF byte. -/
def unsyncSpecRemove : List Nat → List Nat
  | 255 :: 0 :: rest => 255 :: unsyncSpecRemove rest
  | b :: rest => b :: unsyncSpecRemove rest
  | [] => []

/-- Successive `Read` calls with the given buffer sizes, outputs
concatenated. -/
def unsyncReads : List Nat → Bool → List Nat → List Nat
  | [], _, _ => []
  | n :: sizes, ff, inp =>
      match unsyncRead n ff inp with
      | (out, ff2, rem) => out ++ unsyncReads sizes ff2 rem

theorem unsyncAll_true_eval (l : List Nat) :
    unsyncAll true l = match l with
      | 0 :: rest => unsyncAll false rest
      | _ => unsyncAll false l := by
  match l with
  | [] => rfl
  | 0 :: rest => simp [unsyncAll]
  | (b + 1) :: rest => simp [unsyncAll]

theorem unsyncSpecRemove_cons2 (b c : Nat) (rest : List Nat) (h : ¬(b = 255 ∧ c = 0)) :
    unsyncSpecRemove (b :: c :: rest) = b :: unsyncSpecRemove (c :: rest) := by
  conv_lhs => rw [unsyncSpecRemove.eq_def]
  split
  · rename_i heq
    exfalso
    injection heq with h1 h2
    injection h2 with h3 h4
    exact h ⟨h1, h3⟩
  · rename_i b2 rest2 heq
    injection heq with h1 h2
    subst h1
    subst h2
    rfl
  · rename_i heq
    exact absurd heq (by simp)

theorem unsyncSpecRemove_one (b : Nat) : unsyncSpecRemove [b] = [b] := by
  conv_lhs => rw [unsyncSpecRemove.eq_def]
  split
  · rename_i heq
    exfalso
    injection heq with h1 h2
    simp at h2
  · rename_i b2 rest2 heq
    injection heq with h1 h2
    subst h1
    subst h2
    rfl
  · rename_i heq
    exact absurd heq (by simp)

theorem unsyncAll_eq_spec_aux : ∀ (n : Nat) (l : List Nat), l.length ≤ n →
    unsyncAll false l = unsyncSpecRemove l := by
  intro n
  induction n with
  | zero =>
      intro l hl
      have : l = [] := by
        cases l
        · rfl
        · simp at hl
      subst this
      rfl
  | succ n ih =>
      intro l hl
      match l with
      | [] => rfl
      | [b] =>
          rw [unsyncSpecRemove_one]
          simp [unsyncAll]
      | b :: c :: rest =>
          by_cases hb : b = 255 ∧ c = 0
          · obtain ⟨hb1, hb2⟩ := hb
            subst hb1; subst hb2
            have e1 : unsyncAll false (255 :: 0 :: rest) = 255 :: unsyncAll false rest := by
              simp [unsyncAll]
            have e2 : unsyncSpecRemove (255 :: 0 :: rest) = 255 :: unsyncSpecRemove rest := by
              conv_lhs => rw [unsyncSpecRemove.eq_def]
            rw [e1, e2, ih rest (by simp at hl; omega)]
          · rw [unsyncSpecRemove_cons2 b c rest hb]
            by_cases hb255 : b = 255
            · subst hb255
              have hc0 : c ≠ 0 := fun hc => hb ⟨rfl, hc⟩
              have e3 : unsyncAll false (255 :: c :: rest) =
                  255 :: unsyncAll true (c :: rest) := by
                simp [unsyncAll]
              rw [e3, unsyncAll_true_eval]
              have e4 : (match c :: rest with
                  | 0 :: rest => unsyncAll false rest
                  | _ => unsyncAll false (c :: rest)) = unsyncAll false (c :: rest) := by
                match c, hc0 with
                | d + 1, _ => simp
              rw [e4, ih (c :: rest) (by simp at hl ⊢; omega)]
            · have e5 : unsyncAll false (b :: c :: rest) = b :: unsyncAll false (c :: rest) := by
                simp only [unsyncAll]
                rw [if_neg (by simp)]
                have hbf : (b == 255) = false := by
                  simp [hb255]
                rw [hbf]
              rw [e5, ih (c :: rest) (by simp at hl ⊢; omega)]

theorem unsyncAll_eq_spec (l : List Nat) : unsyncAll false l = unsyncSpecRemove l :=
  unsyncAll_eq_spec_aux l.length l (le_refl _)

theorem unsyncRead_take : ∀ (inp : List Nat) (n : Nat) (ff : Bool),
    (unsyncRead n ff inp).1 = (unsyncAll ff inp).take n ∧
    unsyncAll (unsyncRead n ff inp).2.1 (unsyncRead n ff inp).2.2 =
      (unsyncAll ff inp).drop n := by
  intro inp
  induction inp with
  | nil =>
      intro n ff
      constructor
      · cases n <;> rfl
      · cases n <;> rfl
  | cons b rest ih =>
      intro n ff
      cases n with
      | zero => exact ⟨rfl, rfl⟩
      | succ n =>
          by_cases h : ff = true ∧ b = 0
          · obtain ⟨h1, h2⟩ := h
            subst h1; subst h2
            have e1 : unsyncRead (n + 1) true (0 :: rest) = unsyncRead (n + 1) false rest := by
              simp [unsyncRead]
            have e2 : unsyncAll true (0 :: rest) = unsyncAll false rest := by
              simp [unsyncAll]
            rw [e1, e2]
            exact ih (n + 1) false
          · have hcond : (ff && b == 0) = false := by
              cases ff
              · simp
              · have hb : b ≠ 0 := fun hb => h ⟨rfl, hb⟩
                simp [hb]
            have e1 : unsyncRead (n + 1) ff (b :: rest) =
                ((b :: (unsyncRead n (b == 255) rest).1),
                  (unsyncRead n (b == 255) rest).2.1,
                  (unsyncRead n (b == 255) rest).2.2) := by
              simp [unsyncRead, hcond]
            have e2 : unsyncAll ff (b :: rest) = b :: unsyncAll (b == 255) rest := by
              simp only [unsyncAll, hcond, Bool.false_eq_true, if_false]
            rw [e1, e2]
            obtain ⟨ih1, ih2⟩ := ih n (b == 255)
            constructor
            · simp only [List.take_succ_cons, ih1]
            · simp only [List.drop_succ_cons, ih2]

theorem unsyncReads_take : ∀ (sizes : List Nat) (ff : Bool) (inp : List Nat),
    unsyncReads sizes ff inp = (unsyncAll ff inp).take (sizes.sum) := by
  intro sizes
  induction sizes with
  | nil =>
      intro ff inp
      rfl
  | cons n sizes ih =>
      intro ff inp
      obtain ⟨h1, h2⟩ := unsyncRead_take inp n ff
      show (unsyncRead n ff inp).1 ++
          unsyncReads sizes (unsyncRead n ff inp).2.1 (unsyncRead n ff inp).2.2 = _
      rw [ih, h1, h2, List.sum_cons, List.take_add]

/-! ### Claim C3 -/

/-- C3: the unsynchronisation filter removes exactly the 0x00 bytes that
immediately follow a 0xFF byte (with the claim's four examples), and its
output does not depend on how reads are chunked: any sequence of `Read`
calls yields the corresponding prefix of the whole-stream transform, and
the full transform once the buffer sizes cover the output. -/
theorem unsynchroniser_removes_ff00 :
    (∀ inp : List Nat, unsyncAll false inp = unsyncSpecRemove inp) ∧
    unsyncAll false [255, 0] = [255] ∧
    unsyncAll false [255, 0, 0] = [255, 0] ∧
    unsyncAll false [255, 0, 1] = [255, 1] ∧
    unsyncAll false [0, 1, 2] = [0, 1, 2] ∧
    (∀ (sizes : List Nat) (inp : List Nat),
      unsyncReads sizes false inp = (unsyncAll false inp).take (sizes.sum)) ∧
    (∀ (sizes : List Nat) (inp : List Nat),
      (unsyncAll false inp).length ≤ sizes.sum →
      unsyncReads sizes false inp = unsyncAll false inp) := by
  refine ⟨unsyncAll_eq_spec, by decide, by decide, by decide, by decide,
    fun sizes inp => unsyncReads_take sizes false inp, ?_⟩
  intro sizes inp h
  rw [unsyncReads_take sizes false inp, List.take_of_length_le h]

/-- Witness for C3 at the split-read test vector `[0xFF,0x00,0x01,0x02]`
with three one-byte reads. -/
theorem unsynchroniser_removes_ff00_witness :
    ((unsyncAll false [255, 0, 1, 2]).length ≤ ([1, 1, 1] : List Nat).sum) ∧
    unsyncReads [1, 1, 1] false [255, 0, 1, 2] = unsyncAll false [255, 0, 1, 2] :=
  ⟨by decide, unsynchroniser_removes_ff00.2.2.2.2.2.2 [1, 1, 1] [255, 0, 1, 2] (by decide)⟩

/-! ### ID3v2 frame headers (id3v2.go) -/

/-- `ID3v2FrameFlags` (id3v2.go). -/
structure ID3v2FrameFlags where
  tagAlterPreservation : Bool
  fileAlterPreservation : Bool
  readOnly : Bool
  groupIdentity : Bool
  compression : Bool
  encryption : Bool
  unsynchronisation : Bool
  dataLengthIndicator : Bool
deriving DecidableEq

/-- `readID3v2FrameFlags` (id3v2.go): two flag bytes. -/
def readID3v2FrameFlags (s : GoStream) : R (ID3v2FrameFlags × GoStream) :=
  (readBytes s 2).bind fun bs =>
    let m := bs.1.getD 0 0
    let f := bs.1.getD 1 0
    .ok
      ({ tagAlterPreservation := getBit m 6, fileAlterPreservation := getBit m 5,
         readOnly := getBit m 4, groupIdentity := getBit f 7,
         compression := getBit f 3, encryption := getBit f 2,
         unsynchronisation := getBit f 1, dataLengthIndicator := getBit f 0 }, bs.2)

/-- `readID3v2_2FrameHeader` (id3v2.go): 3-byte name, 3-byte plain
big-endian size, 6-byte header. -/
def readID3v2_2FrameHeader (s : GoStream) : R ((GoStr × Int × Int) × GoStream) :=
  (readString s 3).bind fun ns =>
    (readInt ns.2 3).bind fun ss => .ok ((ns.1, ss.1, 6), ss.2)

/-- `readID3v2_3FrameHeader` (id3v2.go): 4-byte name, 4-byte plain
big-endian size, 8-byte header. -/
def readID3v2_3FrameHeader (s : GoStream) : R ((GoStr × Int × Int) × GoStream) :=
  (readString s 4).bind fun ns =>
    (readInt ns.2 4).bind fun ss => .ok ((ns.1, ss.1, 8), ss.2)

/-- `readID3v2_4FrameHeader` (id3v2.go): 4-byte name, 4-byte synchsafe
size, 8-byte header. -/
def readID3v2_4FrameHeader (s : GoStream) : R ((GoStr × Int × Int) × GoStream) :=
  (readString s 4).bind fun ns =>
    (read7BitChunkedInt ns.2 4).bind fun ss => .ok ((ns.1, ss.1, 8), ss.2)

/-- Reference big-endian (base-256) reading of a byte sequence, as the
spec words it. -/
def bigEndianRef (b : List Nat) : Nat := b.foldl (fun a x => a * 256 + x) 0

/-- Reference base-128 reading of a byte sequence: the synchsafe value
when only the low 7 bits of each byte are significant. -/
def base128Ref (b : List Nat) : Nat := b.foldl (fun a x => a * 128 + x) 0

theorem getInt_eq_bigEndianRef (b : List Nat) (h : ∀ x ∈ b, x < 256) :
    getInt b = bigEndianRef b := by
  have step : ∀ (l : List Nat), (∀ x ∈ l, x < 256) → ∀ acc : Nat,
      l.foldl (fun n x => (n <<< 8) ||| x) acc = l.foldl (fun a x => a * 256 + x) acc := by
    intro l
    induction l with
    | nil => intro _ acc; rfl
    | cons y t ih =>
        intro hl acc
        have hy : y < 256 := hl y (by simp)
        have e : (acc <<< 8) ||| y = acc * 256 + y := by
          rw [Nat.shiftLeft_eq]
          rw [show acc * 2 ^ 8 = 2 ^ 8 * acc from by ring]
          rw [← Nat.mul_add_lt_is_or (by exact hy) acc]
          ring
        simp only [List.foldl_cons, e]
        exact ih (fun x hx => hl x (by simp [hx])) (acc * 256 + y)
  exact step b h 0

theorem get7BitChunkedInt_eq_base128Ref (b : List Nat) (h : ∀ x ∈ b, x < 128) :
    get7BitChunkedInt b = base128Ref b := by
  have step : ∀ (l : List Nat), (∀ x ∈ l, x < 128) → ∀ acc : Nat,
      l.foldl (fun n x => (n <<< 7) ||| x) acc = l.foldl (fun a x => a * 128 + x) acc := by
    intro l
    induction l with
    | nil => intro _ acc; rfl
    | cons y t ih =>
        intro hl acc
        have hy : y < 128 := hl y (by simp)
        have e : (acc <<< 7) ||| y = acc * 128 + y := by
          rw [Nat.shiftLeft_eq]
          rw [show acc * 2 ^ 7 = 2 ^ 7 * acc from by ring]
          rw [← Nat.mul_add_lt_is_or (by exact hy) acc]
          ring
        simp only [List.foldl_cons, e]
        exact ih (fun x hx => hl x (by simp [hx])) (acc * 128 + y)
  exact step b h 0

/-! ### Claim C5 -/

/-- C5: the three frame-header layouts: ID3v2.2 has a 3-byte name and a
3-byte plain big-endian size (6-byte header), ID3v2.3 a 4-byte name, 4-byte
plain big-endian size and 2 flag bytes, ID3v2.4 a 4-byte name, 4-byte
synchsafe size and 2 flag bytes; and on bytes with the high bit clear the
synchsafe decoder agrees with the base-128 big-endian reference, e.g.
`[0x7F,0x7F] -> 0x3FFF`. -/
theorem id3v2_frame_header_layouts (data : List Nat) (p : Nat)
    (hbyte : ∀ x ∈ data, x < 256) :
    (p + 6 ≤ data.length →
      readID3v2_2FrameHeader ⟨data, p⟩ =
        R.ok (((data.drop p).take 3,
          Int.ofNat (bigEndianRef ((data.drop (p + 3)).take 3)), 6), ⟨data, p + 6⟩)) ∧
    (p + 8 ≤ data.length →
      readID3v2_3FrameHeader ⟨data, p⟩ =
        R.ok (((data.drop p).take 4,
          Int.ofNat (bigEndianRef ((data.drop (p + 4)).take 4)), 8), ⟨data, p + 8⟩)) ∧
    (p + 8 ≤ data.length →
      readID3v2_4FrameHeader ⟨data, p⟩ =
        R.ok (((data.drop p).take 4,
          Int.ofNat (get7BitChunkedInt ((data.drop (p + 4)).take 4)), 8), ⟨data, p + 8⟩)) ∧
    (p + 2 ≤ data.length →
      ∃ fl : ID3v2FrameFlags,
        readID3v2FrameFlags ⟨data, p⟩ = R.ok (fl, ⟨data, p + 2⟩) ∧
        fl.dataLengthIndicator = getBit ((data.drop p).getD 1 0) 0) ∧
    (∀ b0 b1 b2 b3 : Nat, b0 < 128 → b1 < 128 → b2 < 128 → b3 < 128 →
      get7BitChunkedInt [b0, b1, b2, b3] = ((b0 * 128 + b1) * 128 + b2) * 128 + b3) ∧
    get7BitChunkedInt [127, 127] = 16383 := by
  have hread : ∀ (q k : Nat), q + k ≤ data.length →
      readBytes ⟨data, q⟩ (Int.ofNat k) = .ok ((data.drop q).take k, ⟨data, q + k⟩) :=
    fun q k h => readBytes_ofNat_ok data q k h
  refine ⟨?_, ?_, ?_, ?_, ?_, by decide⟩
  · intro h
    have h3 : readBytes ⟨data, p⟩ (3 : Int) = .ok ((data.drop p).take 3, ⟨data, p + 3⟩) := by
      have := hread p 3 (by omega)
      simpa using this
    have h6 : readBytes ⟨data, p + 3⟩ (3 : Int) =
        .ok ((data.drop (p + 3)).take 3, ⟨data, p + 6⟩) := by
      have := hread (p + 3) 3 (by omega)
      simpa [show p + 3 + 3 = p + 6 from by omega] using this
    have hval : getInt ((data.drop (p + 3)).take 3) = bigEndianRef ((data.drop (p + 3)).take 3) :=
      getInt_eq_bigEndianRef _ (fun x hx =>
        hbyte x (List.mem_of_mem_drop (List.mem_of_mem_take hx)))
    simp only [readID3v2_2FrameHeader, readString, readInt, h3, h6, R.bind, hval]
  · intro h
    have h4 : readBytes ⟨data, p⟩ (4 : Int) = .ok ((data.drop p).take 4, ⟨data, p + 4⟩) := by
      have := hread p 4 (by omega)
      simpa using this
    have h8 : readBytes ⟨data, p + 4⟩ (4 : Int) =
        .ok ((data.drop (p + 4)).take 4, ⟨data, p + 8⟩) := by
      have := hread (p + 4) 4 (by omega)
      simpa [show p + 4 + 4 = p + 8 from by omega] using this
    have hval : getInt ((data.drop (p + 4)).take 4) = bigEndianRef ((data.drop (p + 4)).take 4) :=
      getInt_eq_bigEndianRef _ (fun x hx =>
        hbyte x (List.mem_of_mem_drop (List.mem_of_mem_take hx)))
    simp only [readID3v2_3FrameHeader, readString, readInt, h4, h8, R.bind, hval]
  · intro h
    have h4 : readBytes ⟨data, p⟩ (4 : Int) = .ok ((data.drop p).take 4, ⟨data, p + 4⟩) := by
      have := hread p 4 (by omega)
      simpa using this
    have h8 : readBytes ⟨data, p + 4⟩ (4 : Int) =
        .ok ((data.drop (p + 4)).take 4, ⟨data, p + 8⟩) := by
      have := hread (p + 4) 4 (by omega)
      simpa [show p + 4 + 4 = p + 8 from by omega] using this
    simp only [readID3v2_4FrameHeader, readString, read7BitChunkedInt, h4, h8, R.bind]
  · intro h
    have h2 : readBytes ⟨data, p⟩ (2 : Int) = .ok ((data.drop p).take 2, ⟨data, p + 2⟩) := by
      have := hread p 2 (by omega)
      simpa using this
    have hgetD : ((data.drop p).take 2).getD 1 0 = (data.drop p).getD 1 0 := by
      rcases data.drop p with _ | ⟨a, _ | ⟨b, t⟩⟩ <;> simp
    refine ⟨⟨getBit (((data.drop p).take 2).getD 0 0) 6, getBit (((data.drop p).take 2).getD 0 0) 5,
      getBit (((data.drop p).take 2).getD 0 0) 4, getBit (((data.drop p).take 2).getD 1 0) 7,
      getBit (((data.drop p).take 2).getD 1 0) 3, getBit (((data.drop p).take 2).getD 1 0) 2,
      getBit (((data.drop p).take 2).getD 1 0) 1, getBit (((data.drop p).take 2).getD 1 0) 0⟩,
      ?_, ?_⟩
    · simp only [readID3v2FrameFlags, h2, R.bind]
    · show getBit (((data.drop p).take 2).getD 1 0) 0 = getBit ((data.drop p).getD 1 0) 0
      rw [hgetD]
  · intro b0 b1 b2 b3 h0 h1 h2 h3
    have := get7BitChunkedInt_eq_base128Ref [b0, b1, b2, b3] (by
      intro x hx
      simp only [List.mem_cons, List.not_mem_nil, or_false] at hx
      rcases hx with rfl | rfl | rfl | rfl <;> omega)
    rw [this]
    simp [base128Ref]

/-- Witness for C5 at a concrete ID3v2.3 frame header. -/
theorem id3v2_frame_header_layouts_witness :
    (∀ x ∈ (str ("TIT2") ++ [0, 0, 1, 5] ++ [0, 0] : List Nat), x < 256) ∧
    ((0 : Nat) + 8 ≤ (str ("TIT2") ++ [0, 0, 1, 5] ++ [0, 0] : List Nat).length →
      readID3v2_3FrameHeader ⟨str ("TIT2") ++ [0, 0, 1, 5] ++ [0, 0], 0⟩ =
        R.ok ((((str ("TIT2") ++ [0, 0, 1, 5] ++ [0, 0] : List Nat).drop 0).take 4,
          Int.ofNat (bigEndianRef
            (((str ("TIT2") ++ [0, 0, 1, 5] ++ [0, 0] : List Nat).drop (0 + 4)).take 4)), 8),
          ⟨str ("TIT2") ++ [0, 0, 1, 5] ++ [0, 0], 0 + 8⟩)) :=
  ⟨by decide,
    (id3v2_frame_header_layouts (str ("TIT2") ++ [0, 0, 1, 5] ++ [0, 0]) 0 (by decide)).2.1⟩

/-! ### ID3v2 frame bodies (id3v23frames.go) -/

/-- UTF-8 bytes of one code point (what Go `string([]rune)` produces for
each valid rune). -/
def utf8Encode (c : Nat) : List Nat :=
  if c < 128 then [c]
  else if c < 2048 then [192 ||| (c >>> 6), 128 ||| (c &&& 63)]
  else if c < 65536 then
    [224 ||| (c >>> 12), 128 ||| ((c >>> 6) &&& 63), 128 ||| (c &&& 63)]
  else
    [240 ||| (c >>> 18), 128 ||| ((c >>> 12) &&& 63), 128 ||| ((c >>> 6) &&& 63),
      128 ||| (c &&& 63)]

/-- `decodeISO8859`: every byte becomes one code point. -/
def decodeISO8859 (b : List Nat) : GoStr :=
  b.foldr (fun x acc => utf8Encode x ++ acc) []

/-- 16-bit units from bytes with the given byte order (`true` is
big-endian); the Go loop slices `b[i:i+2]`, which panics on a trailing odd
byte. -/
def utf16Units (bigE : Bool) : List Nat → R (List Nat)
  | [] => .ok []
  | [_] => .panicked
  | hi :: lo :: rest =>
      (utf16Units bigE rest).bind fun us =>
        .ok ((if bigE then hi * 256 + lo else lo * 256 + hi) :: us)

/-- `utf16.Decode`: combine surrogate pairs, replace unpaired surrogates
with U+FFFD. -/
def utf16DecodeUnits : List Nat → List Nat
  | [] => []
  | [u] => if 55296 ≤ u ∧ u < 57344 then [65533] else [u]
  | u :: u2 :: rest =>
      if 55296 ≤ u ∧ u < 56320 then
        if 56320 ≤ u2 ∧ u2 < 57344 then
          (65536 + (u - 55296) * 1024 + (u2 - 56320)) :: utf16DecodeUnits rest
        else 65533 :: utf16DecodeUnits (u2 :: rest)
      else if 56320 ≤ u ∧ u < 57344 then 65533 :: utf16DecodeUnits (u2 :: rest)
      else u :: utf16DecodeUnits (u2 :: rest)

/-- `decodeUTF16`: bytes to UTF-16 units to a UTF-8 string. -/
def decodeUTF16 (bigE : Bool) (b : List Nat) : R GoStr :=
  (utf16Units bigE b).bind fun us =>
    .ok ((utf16DecodeUnits us).foldr (fun c acc => utf8Encode c ++ acc) [])

/-- `decodeUTF16WithBOM`: a 2-byte byte-order mark selects the endianness. -/
def decodeUTF16WithBOM (b : List Nat) : R GoStr :=
  match b with
  | b0 :: b1 :: rest =>
      if b0 = 254 ∧ b1 = 255 then decodeUTF16 true rest
      else if b0 = 255 ∧ b1 = 254 then decodeUTF16 false rest
      else .err (.msg ("invalid byte order marker"))
  | _ => .panicked

/-- `decodeText`: encoding byte 0 = ISO-8859-1, 1 = UTF-16 with BOM,
2 = UTF-16 big-endian, 3 = UTF-8. -/
def decodeText (enc : Nat) (b : List Nat) : R GoStr :=
  if b.length = 0 then .ok []
  else if enc = 0 then .ok (decodeISO8859 b)
  else if enc = 1 then
    if b.length = 1 then .ok [] else decodeUTF16WithBOM b
  else if enc = 2 then
    if b.length = 1 then .ok [] else decodeUTF16 true b
  else if enc = 3 then .ok b
  else .err (.msg ("invalid encoding byte"))

/-- `parseText`: first byte selects the encoding. -/
def parseText (b : List Nat) : R GoStr :=
  if b.length = 0 then .ok [] else decodeText (b.getD 0 0) (b.drop 1)

/-- `readTFrame`: decoded text with every 0x00 byte removed
(`strings.Join(strings.Split(txt, "\x00"), "")`). -/
def readTFrame (b : List Nat) : R GoStr :=
  (parseText b).bind fun txt => .ok (txt.filter (fun x => x != 0))

/-- `encodingDelim`: null-terminator width per encoding. -/
def encodingDelim (enc : Nat) : R (List Nat) :=
  if enc = 0 ∨ enc = 3 then .ok [0]
  else if enc = 1 ∨ enc = 2 then .ok [0, 0]
  else .err (.msg ("invalid encoding byte"))

/-- First index at which `delim` occurs as a contiguous sublist. -/
def findDelim (delim : List Nat) : List Nat → Option Nat
  | [] => if delim.isPrefixOf ([] : List Nat) then some 0 else none
  | x :: rest =>
      if delim.isPrefixOf (x :: rest) then some 0
      else (findDelim delim rest).map (fun i => i + 1)

/-- `dataSplit`: `bytes.SplitN(b, delim, 2)` plus the double-null
adjustment; indexing `result[1][0]` panics when the delimiter ends the
buffer. -/
def dataSplit (b : List Nat) (enc : Nat) : R (List (List Nat)) :=
  (encodingDelim enc).bind fun delim =>
    let result : List (List Nat) :=
      match findDelim delim b with
      | some i => [b.take i, b.drop (i + delim.length)]
      | none => [b]
    if result.length ≤ 1 then .ok result
    else
      match result.getD 1 [] with
      | [] => .panicked
      | 0 :: rest2 => .ok [result.getD 0 [], rest2]
      | _ => .ok result

/-- `Comm` (COMM/USLT frames). -/
structure Comm where
  language : GoStr
  description : GoStr
  text : GoStr
deriving DecidableEq

/-- `readTextWithDescrFrame`: encoding byte, 3-byte language, then
description and text split on the encoding delimiter.  Short buffers and a
missing delimiter panic through Go slicing/indexing. -/
def readTextWithDescrFrame (b : List Nat) : R Comm :=
  if b.length < 4 then .panicked
  else
    let enc := b.getD 0 0
    (dataSplit (b.drop 4) enc).bind fun parts =>
      ((decodeText enc (parts.getD 0 [])).mapErr
          (fun e => .msg ("error decoding tag description text: " ++ e.text))).bind
        fun desc =>
          if parts.length < 2 then .panicked
          else
            ((decodeText enc (parts.getD 1 [])).mapErr
                (fun e => .msg ("error decoding tag text: " ++ e.text))).bind
              fun txt =>
                .ok { language := (b.drop 1).take 3, description := desc, text := txt }

/-- `pictureTypes` (the apostrophes the source strings contain are omitted
from these name constants; no claim depends on their spelling). -/
def pictureTypes (b : Nat) : GoStr :=
  if b = 0 then str ("Other")
  else if b = 1 then str ("32x32 pixels file icon (PNG only)")
  else if b = 2 then str ("Other file icon")
  else if b = 3 then str ("Cover (front)")
  else if b = 4 then str ("Cover (back)")
  else if b = 5 then str ("Leaflet page")
  else if b = 6 then str ("Media (e.g. lable side of CD)")
  else if b = 7 then str ("Lead artist/lead performer/soloist")
  else if b = 8 then str ("Artist/performer")
  else if b = 9 then str ("Conductor")
  else if b = 10 then str ("Band/Orchestra")
  else if b = 11 then str ("Composer")
  else if b = 12 then str ("Lyricist/text writer")
  else if b = 13 then str ("Recording Location")
  else if b = 14 then str ("During recording")
  else if b = 15 then str ("During performance")
  else if b = 16 then str ("Movie/video screen capture")
  else if b = 17 then str ("A bright coloured fish")
  else if b = 18 then str ("Illustration")
  else if b = 19 then str ("Band/artist logotype")
  else if b = 20 then str ("Publisher/Studio logotype")
  else []

/-- `Picture`. -/
structure Picture where
  ext : GoStr
  mimeType : GoStr
  ptype : GoStr
  description : GoStr
  pdata : GoStr
deriving DecidableEq

/-- `readPICFrame` (ID3v2.2): encoding, 3-char image format, picture type,
description, data. -/
def readPICFrame (b : List Nat) : R Picture :=
  if b.length < 5 then .panicked
  else
    let enc := b.getD 0 0
    let ext := (b.drop 1).take 3
    let picType := b.getD 4 0
    (dataSplit (b.drop 5) enc).bind fun parts =>
      ((decodeText enc (parts.getD 0 [])).mapErr
          (fun e => .msg ("error decoding PIC description text: " ++ e.text))).bind
        fun desc =>
          if parts.length < 2 then .panicked
          else
            let mime :=
              if ext = str ("jpeg") ∨ ext = str ("jpg") then str ("image/jpeg")
              else if ext = str ("png") then str ("image/png")
              else []
            .ok { ext := ext, mimeType := mime, ptype := pictureTypes picType,
                  description := desc, pdata := parts.getD 1 [] }

/-- `readAPICFrame` (ID3v2.3/2.4): encoding, null-terminated MIME string,
picture type, description, data. -/
def readAPICFrame (b : List Nat) : R Picture :=
  match b with
  | [] => .panicked
  | b0 :: brest =>
      let enc := b0
      match findDelim [0] brest with
      | none => .panicked
      | some i =>
          let mime := brest.take i
          match brest.drop (i + 1) with
          | [] => .panicked
          | picType :: b3 =>
              (dataSplit b3 enc).bind fun parts =>
                ((decodeText enc (parts.getD 0 [])).mapErr
                    (fun e => .msg ("error decoding APIC description text: " ++ e.text))).bind
                  fun desc =>
                    if parts.length < 2 then .panicked
                    else
                      let ext :=
                        if mime = str ("image/jpeg") then str ("jpg")
                        else if mime = str ("image/png") then str ("png")
                        else []
                      .ok { ext := ext, mimeType := mime, ptype := pictureTypes picType,
                            description := desc, pdata := parts.getD 1 [] }

/-! ### The raw frame map and the frame loop (id3v2.go, `readID3v2Frames`) -/

/-- ASCII whitespace, for `strings.TrimSpace` on the (ASCII) frame names. -/
def isASCIISpace (c : Nat) : Bool :=
  c == 32 || c == 9 || c == 10 || c == 11 || c == 12 || c == 13

/-- `strings.TrimSpace` restricted to the ASCII range. -/
def trimSpace (s : GoStr) : GoStr :=
  ((s.dropWhile isASCIISpace).reverse.dropWhile isASCIISpace).reverse

/-- Decimal digits of `strconv.Itoa`, with fuel to stay structurally
recursive (one fuel unit per digit). -/
def itoaCore : Nat → Nat → List Nat → List Nat
  | 0, _, acc => acc
  | f + 1, n, acc =>
      if n < 10 then (48 + n) :: acc else itoaCore f (n / 10) ((48 + n % 10) :: acc)

/-- `strconv.Itoa` as a byte string. -/
def itoa (n : Nat) : List Nat := itoaCore (n + 1) n []

/-- The values stored in the raw frame map (`interface{}` in Go). -/
inductive FrameValue where
  | text (t : GoStr) : FrameValue
  | comm (c : Comm) : FrameValue
  | pic (p : Picture) : FrameValue
deriving DecidableEq

/-- The raw frame map (`map[string]interface{}`) as an association list. -/
abbrev FrameMap := List (GoStr × FrameValue)

/-- Go map lookup. -/
def mapGet? (m : FrameMap) (k : GoStr) : Option FrameValue :=
  match m.find? (fun p => p.1 == k) with
  | some p => some p.2
  | none => none

/-- Go map assignment: replace an existing binding or append a new one. -/
def mapSet (m : FrameMap) (k : GoStr) (v : FrameValue) : FrameMap :=
  if (mapGet? m k).isSome then m.map (fun p => if p.1 == k then (k, v) else p)
  else m ++ [(k, v)]

/-- The collision loop of `readID3v2Frames`: try `name_0`, `name_1`, ...
until a free key appears (fuel-bounded; `readID3v2Frames` passes enough
fuel for the pigeonhole bound). -/
def freshLoop (result : FrameMap) (name : GoStr) : Nat → Nat → GoStr
  | 0, i => name ++ [95] ++ itoa i
  | f + 1, i =>
      if (mapGet? result (name ++ [95] ++ itoa i)).isSome then
        freshLoop result name f (i + 1)
      else name ++ [95] ++ itoa i

/-- `rawName` selection in `readID3v2Frames`: the frame name itself when
free, otherwise the first free suffixed candidate. -/
def chooseRawName (result : FrameMap) (name : GoStr) : GoStr :=
  if (mapGet? result name).isSome then freshLoop result name (result.length + 1) 0
  else name

/-- One parsed frame header: name, declared size, header size, flags
(ID3v2.3/2.4 only). -/
def readFrameHeaderByVersion (v : Format) (s : GoStream) :
    R ((GoStr × Int × Int × Option ID3v2FrameFlags) × GoStream) :=
  match v with
  | .id3v2_2 =>
      (readID3v2_2FrameHeader s).bind fun hs =>
        .ok ((hs.1.1, hs.1.2.1, hs.1.2.2, none), hs.2)
  | .id3v2_3 =>
      (readID3v2_3FrameHeader s).bind fun hs =>
        (readID3v2FrameFlags hs.2).bind fun fs =>
          .ok ((hs.1.1, hs.1.2.1, hs.1.2.2 + 2, some fs.1), fs.2)
  | .id3v2_4 =>
      (readID3v2_4FrameHeader s).bind fun hs =>
        (readID3v2FrameFlags hs.2).bind fun fs =>
          .ok ((hs.1.1, hs.1.2.1, hs.1.2.2 + 2, some fs.1), fs.2)
  | _ => .ok (([], 0, 0, none), s)

/-- The `for` loop of `readID3v2Frames`: stops at the declared tag size, a
zero frame size or a blank name; handles the data-length-indicator
(subtracting 4 from the declared size) and skips per-frame unsynchronised
frames; renames duplicates; stores `T*` text frames, `COMM`/`USLT`
comments and `APIC`/`PIC` pictures. -/
def readID3v2FramesLoop (h : ID3v2Header) : Nat → Int → GoStream → FrameMap → R FrameMap
  | 0, _, _, _ => .err (.msg ("model: frame loop fuel exhausted"))
  | fuel + 1, offset, s, result =>
      if offset < h.size then
        (readFrameHeaderByVersion h.version s).bind fun hs =>
          let name0 := hs.1.1
          let size0 := hs.1.2.1
          let headerSize := hs.1.2.2.1
          let flags := hs.1.2.2.2
          if size0 = 0 then .ok result
          else
            let offset2 := offset + headerSize + size0
            (if h2 : flags.elim false (fun fl => fl.dataLengthIndicator) then
              (read7BitChunkedInt hs.2 4).bind fun ds => .ok ((size0 - 4 : Int), ds.2)
            else .ok (size0, hs.2)).bind fun szs =>
              let size := szs.1
              if flags.elim false (fun fl => fl.unsynchronisation) then
                readID3v2FramesLoop h fuel offset2 szs.2 result
              else
                (readBytes szs.2 size).bind fun bs =>
                  let name := trimSpace name0
                  if name = [] then .ok result
                  else
                    let rawName := chooseRawName result name
                    (if name.getD 0 0 = 84 then
                      (readTFrame bs.1).bind fun txt =>
                        .ok (mapSet result rawName (.text txt))
                    else if name = str ("COMM") ∨ name = str ("USLT") then
                      (readTextWithDescrFrame bs.1).bind fun c =>
                        .ok (mapSet result rawName (.comm c))
                    else if name = str ("APIC") then
                      (readAPICFrame bs.1).bind fun p =>
                        .ok (mapSet result rawName (.pic p))
                    else if name = str ("PIC") then
                      (readPICFrame bs.1).bind fun p =>
                        .ok (mapSet result rawName (.pic p))
                    else .ok result).bind fun result2 =>
                      readID3v2FramesLoop h fuel offset2 bs.2 result2
      else .ok result

/-- `readID3v2Frames`: run the loop from offset 10 (the tag header size)
with an empty map. -/
def readID3v2Frames (fuel : Nat) (s : GoStream) (h : ID3v2Header) : R FrameMap :=
  readID3v2FramesLoop h fuel 10 s []

/-! ### Properties of the duplicate-name renaming -/

theorem itoaCore_acc (f : Nat) : ∀ (n : Nat) (acc : List Nat),
    itoaCore f n acc = itoaCore f n [] ++ acc := by
  induction f with
  | zero => intro n acc; rfl
  | succ f ih =>
      intro n acc
      by_cases h : n < 10
      · simp [itoaCore, h]
      · simp only [itoaCore, if_neg h]
        rw [ih (n / 10) ((48 + n % 10) :: acc), ih (n / 10) [48 + n % 10]]
        simp

/-- Value of a decimal digit string (used to invert `itoa`). -/
def digitsVal (l : List Nat) : Nat := l.foldl (fun a d => a * 10 + (d - 48)) 0

theorem digitsVal_itoaCore : ∀ (f n : Nat), n < 10 ^ f → digitsVal (itoaCore f n []) = n := by
  intro f
  induction f with
  | zero =>
      intro n h
      have : n = 0 := by simpa using h
      subst this
      rfl
  | succ f ih =>
      intro n h
      by_cases hn : n < 10
      · simp only [itoaCore, if_pos hn, digitsVal, List.foldl_cons, List.foldl_nil]
        omega
      · simp only [itoaCore, if_neg hn]
        rw [itoaCore_acc]
        have hdiv : n / 10 < 10 ^ f := by
          rw [Nat.div_lt_iff_lt_mul (by norm_num)]
          calc n < 10 ^ (f + 1) := h
            _ = 10 ^ f * 10 := by ring
        have hval := ih (n / 10) hdiv
        simp only [digitsVal, List.foldl_append, List.foldl_cons, List.foldl_nil] at hval ⊢
        rw [hval]
        omega

theorem itoa_inj {m n : Nat} (h : itoa m = itoa n) : m = n := by
  have hm : digitsVal (itoa m) = m :=
    digitsVal_itoaCore (m + 1) m
      (lt_of_lt_of_le (Nat.lt_two_pow m)
        (le_trans (Nat.pow_le_pow_left (by norm_num) m)
          (Nat.pow_le_pow_right (by norm_num) (by omega))))
  have hn : digitsVal (itoa n) = n :=
    digitsVal_itoaCore (n + 1) n
      (lt_of_lt_of_le (Nat.lt_two_pow n)
        (le_trans (Nat.pow_le_pow_left (by norm_num) n)
          (Nat.pow_le_pow_right (by norm_num) (by omega))))
  rw [h, hn] at hm
  omega

theorem freshLoop_suffix (result : FrameMap) (name : GoStr) :
    ∀ (f i : Nat), ∃ j, freshLoop result name f i = name ++ [95] ++ itoa j := by
  intro f
  induction f with
  | zero => intro i; exact ⟨i, rfl⟩
  | succ f ih =>
      intro i
      by_cases h : (mapGet? result (name ++ [95] ++ itoa i)).isSome
      · obtain ⟨j, hj⟩ := ih (i + 1)
        refine ⟨j, ?_⟩
        simp only [freshLoop, if_pos h]
        exact hj
      · exact ⟨i, by simp only [freshLoop, if_neg h]⟩

theorem mapGet?_isSome_mem_keys (m : FrameMap) (k : GoStr)
    (h : (mapGet? m k).isSome) : k ∈ m.map Prod.fst := by
  unfold mapGet? at h
  rcases hf : m.find? (fun p => p.1 == k) with _ | p
  · rw [hf] at h
    simp at h
  · have hmem := List.mem_of_find?_eq_some hf
    have hpred := List.find?_some hf
    have hkey : p.1 = k := by simpa using hpred
    exact List.mem_map.mpr ⟨p, hmem, hkey⟩

theorem freshLoop_free (result : FrameMap) (name : GoStr) :
    ∀ (f i : Nat),
      (∃ j, i ≤ j ∧ j < i + f ∧
        (mapGet? result (name ++ [95] ++ itoa j)).isSome = false) →
      (mapGet? result (freshLoop result name f i)).isSome = false := by
  intro f
  induction f with
  | zero =>
      rintro i ⟨j, h1, h2, _⟩
      omega
  | succ f ih =>
      rintro i ⟨j, h1, h2, h3⟩
      by_cases h : (mapGet? result (name ++ [95] ++ itoa i)).isSome
      · have hji : j ≠ i := by
          intro e
          subst e
          rw [h3] at h
          exact Bool.noConfusion h
        simp only [freshLoop, if_pos h]
        exact ih (i + 1) ⟨j, by omega, by omega, h3⟩
      · simp only [freshLoop, if_neg h]
        simpa using h

theorem exists_free_suffix (result : FrameMap) (name : GoStr) :
    ∃ j, j < result.length + 1 ∧
      (mapGet? result (name ++ [95] ++ itoa j)).isSome = false := by
  by_contra hcon
  push_neg at hcon
  have hall : ∀ j, j < result.length + 1 →
      (mapGet? result (name ++ [95] ++ itoa j)).isSome = true := by
    intro j hj
    exact eq_true_of_ne_false (hcon j hj)
  have hnodup : ((List.range (result.length + 1)).map
      (fun i => name ++ [95] ++ itoa i)).Nodup := by
    refine List.Nodup.map ?_ (List.nodup_range _)
    intro a b hab
    have h2 : name ++ ([95] ++ itoa a) = name ++ ([95] ++ itoa b) := by
      simpa [List.append_assoc] using hab
    have h3 := List.append_cancel_left h2
    have h4 : itoa a = itoa b := by simpa using h3
    exact itoa_inj h4
  have hsub : ((List.range (result.length + 1)).map
      (fun i => name ++ [95] ++ itoa i)) ⊆ result.map Prod.fst := by
    intro c hc
    obtain ⟨i, hi, rfl⟩ := List.mem_map.mp hc
    exact mapGet?_isSome_mem_keys _ _ (hall i (List.mem_range.mp hi))
  have hle := (hnodup.subperm hsub).length_le
  simp at hle

theorem chooseRawName_free (result : FrameMap) (name : GoStr) :
    mapGet? result (chooseRawName result name) = none := by
  unfold chooseRawName
  by_cases h : (mapGet? result name).isSome
  · simp only [if_pos h]
    obtain ⟨j, hj, hfree⟩ := exists_free_suffix result name
    have hfl := freshLoop_free result name (result.length + 1) 0 ⟨j, by omega, by omega, hfree⟩
    exact Option.not_isSome_iff_eq_none.mp (by simp [hfl])
  · simp only [if_neg h]
    exact Option.not_isSome_iff_eq_none.mp h

theorem mapSet_fresh_preserves (m : FrameMap) (k : GoStr) (v : FrameValue) (q : GoStr)
    (hq : mapGet? m q ≠ none) (hk : mapGet? m k = none) :
    mapGet? (mapSet m k v) q = mapGet? m q := by
  unfold mapSet
  rw [hk]
  simp only [Option.isSome_none, Bool.false_eq_true, if_false]
  unfold mapGet? at hq ⊢
  rw [List.find?_append]
  rcases hf : m.find? (fun p => p.1 == q) with _ | p
  · rw [hf] at hq
    simp at hq
  · simp [hf, Option.or]

/-! ### Claim C6 -/

/-- An ID3v2.3 tag with three `TIT2` frames carrying texts `AAA`, `BBB`,
`CCC`. -/
def sampleDupTag : List Nat :=
  str ("ID3") ++ [3, 0, 0] ++ [0, 0, 0, 52] ++
  (str ("TIT2") ++ [0, 0, 0, 4] ++ [0, 0] ++ [3, 65, 65, 65]) ++
  (str ("TIT2") ++ [0, 0, 0, 4] ++ [0, 0] ++ [3, 66, 66, 66]) ++
  (str ("TIT2") ++ [0, 0, 0, 4] ++ [0, 0] ++ [3, 67, 67, 67])

/-- C6: the raw-name selection always lands on a free key (the bare name,
or the first free `name_i` candidate when occupied), its insertion never
overwrites an existing binding, and a tag with three `TIT2` frames decodes
with all three stored as `TIT2`, `TIT2_0`, `TIT2_1`. -/
theorem id3v2_duplicate_frames_kept :
    (∀ (result : FrameMap) (name : GoStr),
      mapGet? result (chooseRawName result name) = none) ∧
    (∀ (result : FrameMap) (name : GoStr) (v : FrameValue) (k : GoStr),
      mapGet? result k ≠ none →
      mapGet? (mapSet result (chooseRawName result name) v) k = mapGet? result k) ∧
    (∀ (result : FrameMap) (name : GoStr),
      mapGet? result name ≠ none →
      ∃ j, chooseRawName result name = name ++ [95] ++ itoa j) ∧
    (readID3v2Header ⟨sampleDupTag, 0⟩).bind (fun hs => readID3v2Frames 10 hs.2 hs.1) =
      R.ok [(str ("TIT2"), .text (str ("AAA"))),
            (str ("TIT2_0"), .text (str ("BBB"))),
            (str ("TIT2_1"), .text (str ("CCC")))] := by
  refine ⟨chooseRawName_free, ?_, ?_, by decide⟩
  · intro result name v k hk
    exact mapSet_fresh_preserves result (chooseRawName result name) v k hk
      (chooseRawName_free result name)
  · intro result name hname
    unfold chooseRawName
    rw [if_pos (Option.ne_none_iff_isSome.mp hname)]
    exact freshLoop_suffix result name (result.length + 1) 0

/-- Witness for C6: the no-overwrite property applied at a concrete
one-entry map colliding on `TIT2`. -/
theorem id3v2_duplicate_frames_kept_witness :
    (mapGet? [(str ("TIT2"), FrameValue.text (str ("AAA")))] (str ("TIT2")) ≠ none) ∧
    mapGet? (mapSet [(str ("TIT2"), FrameValue.text (str ("AAA")))]
        (chooseRawName [(str ("TIT2"), FrameValue.text (str ("AAA")))] (str ("TIT2")))
        (FrameValue.text (str ("BBB")))) (str ("TIT2")) =
      mapGet? [(str ("TIT2"), FrameValue.text (str ("AAA")))] (str ("TIT2")) :=
  ⟨by decide,
    id3v2_duplicate_frames_kept.2.1 [(str ("TIT2"), FrameValue.text (str ("AAA")))]
      (str ("TIT2")) (FrameValue.text (str ("BBB"))) (str ("TIT2")) (by decide)⟩

/-! ### Claim C4 -/

/-- An ID3v2.3 tag whose single `TIT2` frame declares size 1 but sets the
data-length-indicator flag: the decoder subtracts 4 from the size and then
calls `readBytes` with a negative count. -/
def sampleDLITag : List Nat :=
  str ("ID3") ++ [3, 0, 0] ++ [0, 0, 0, 32] ++
  str ("TIT2") ++ [0, 0, 0, 1] ++ [0, 1] ++ [0, 0, 0, 0]

/-- C4 (failing case): on an ID3v2.3 frame with the data-length-indicator
flag set and declared size 1, `readID3v2Frames` reaches
`make([]byte, size-4)` with a negative length — a runtime panic, not a
structural error. -/
theorem id3v2_dli_undersized_frame_panics :
    (readID3v2Header ⟨sampleDLITag, 0⟩).bind
      (fun hs => readID3v2Frames 10 hs.2 hs.1) = R.panicked := by
  decide

/-! ### FLAC metadata accessors (flac.go, `metadataFLAC`) -/

/-- Go map indexing over the parsed Vorbis comments (`m.c[k]`): the zero
value is the empty string. -/
def vorbisGet (c : List (String × String)) (k : String) : String :=
  match c.find? (fun p => p.1 == k) with
  | some p => p.2
  | none => ""

/-- `metadataFLAC.Artist` (flac.go): the `performer` comment when
non-empty, otherwise the `artist` comment. -/
def metadataFLACArtist (c : List (String × String)) : String :=
  if vorbisGet c ("performer") ≠ "" then vorbisGet c ("performer")
  else vorbisGet c ("artist")

theorem vorbisGet_mem (c : List (String × String)) (k v : String)
    (hnd : (c.map Prod.fst).Nodup) (hmem : (k, v) ∈ c) : vorbisGet c k = v := by
  induction c with
  | nil => simp at hmem
  | cons p rest ih =>
      rcases List.mem_cons.mp hmem with heq | hmem2
      · rw [← heq]
        simp [vorbisGet]
      · have hk : k ∈ rest.map Prod.fst := List.mem_map.mpr ⟨(k, v), hmem2, rfl⟩
        have hnotin := (List.nodup_cons.mp hnd).1
        have hp : (p.1 == k) = false := by
          have hne : p.1 ≠ k := fun e => hnotin (e ▸ hk)
          simpa using hne
        have htail : (rest.map Prod.fst).Nodup := (List.nodup_cons.mp hnd).2
        unfold vorbisGet
        rw [List.find?_cons_of_neg _ (by simp [hp])]
        exact ih htail hmem2

theorem vorbisGet_not_mem (c : List (String × String)) (k : String)
    (h : ∀ v, (k, v) ∈ c → False) : vorbisGet c k = "" := by
  unfold vorbisGet
  rcases hf : c.find? (fun p => p.1 == k) with _ | p
  · rw [hf]
  · exfalso
    have hmem := List.mem_of_find?_eq_some hf
    have hkey : p.1 = k := by simpa using List.find?_some hf
    exact h p.2 (by rw [← hkey]; exact hmem)

/-! ### Claim C10 -/

/-- C10: `Artist()` on FLAC metadata returns the `performer` Vorbis
comment when present and non-empty, otherwise the `artist` comment, and
the empty string when neither is present. -/
theorem flac_artist_prefers_performer (c : List (String × String))
    (hnd : (c.map Prod.fst).Nodup) :
    (∀ v, ("performer", v) ∈ c → v ≠ "" → metadataFLACArtist c = v) ∧
    ((∀ v, ("performer", v) ∈ c → v = "") →
      metadataFLACArtist c = vorbisGet c ("artist")) ∧
    ((∀ v, ("performer", v) ∈ c → False) → (∀ v, ("artist", v) ∈ c → False) →
      metadataFLACArtist c = "") := by
  refine ⟨?_, ?_, ?_⟩
  · intro v hmem hv
    have hp := vorbisGet_mem c ("performer") v hnd hmem
    unfold metadataFLACArtist
    rw [hp, if_pos hv]
  · intro hall
    have hp : vorbisGet c ("performer") = "" := by
      by_cases hex : ∃ v, ("performer", v) ∈ c
      · obtain ⟨v, hv⟩ := hex
        rw [vorbisGet_mem c ("performer") v hnd hv]
        exact hall v hv
      · exact vorbisGet_not_mem c ("performer") (fun v hv => hex ⟨v, hv⟩)
    unfold metadataFLACArtist
    rw [hp]
    simp
  · intro hperf hart
    have hp := vorbisGet_not_mem c ("performer") hperf
    have ha := vorbisGet_not_mem c ("artist") hart
    unfold metadataFLACArtist
    rw [hp, ha]
    simp

/-- Witness for C10: a single non-empty `performer` comment wins. -/
theorem flac_artist_prefers_performer_witness :
    (([("performer", "X")] : List (String × String)).map Prod.fst).Nodup ∧
    metadataFLACArtist [("performer", "X")] = "X" :=
  ⟨by decide,
    (flac_artist_prefers_performer [("performer", "X")] (by decide)).1 "X" (by decide)
      (by decide)⟩

end Tag
